import Mathlib

/-!
Shallow embedding of the agentd agent execution subsystem.

The TypeScript sources embedded here:
- src/src/env.ts (environment blocklist and filter)
- src/src/tools/mcp-client.ts (child environment construction for spawned adapters)
- src/src/tools/registry.ts and its compiled build src/unnamed/part_005
  (server registry, registerServer / registerLocalServer / disconnectAll)
- src/unnamed/part_015 (run/event trace store: createRun, completeRun, failRun,
  logEvent, getRun, costForModel)
- src/src/scheduler.ts (parseCronTriggers, computeNextRun)
- src/unnamed/part_021 (runner: parseModelProvider, retry classification,
  runAnthropicLoop, runAgent)
- src/src/ollama.ts (runOllamaLoop)

JavaScript promises and awaits are modelled by explicit result values; the
network and the tool subprocesses are modelled as oracles (functions from call
indices to outcomes). Machine integers do not occur; all counters are Nat.
Wall-clock durations and ISO timestamps are omitted from the model: no claim
depends on them. Event payloads keep exactly the fields the claims mention.
-/

/-! ## Small JavaScript-style helpers -/

/-- Sublist-at-some-position test on character lists. -/
def charsInfix (pat s : List Char) : Bool :=
  match s with
  | [] => pat.isEmpty
  | _ :: rest => pat.isPrefixOf s || charsInfix pat rest

/-- JavaScript String.prototype.includes, used by the ollama error classifier. -/
def containsSubstr (s pat : String) : Bool :=
  charsInfix pat.toList s.toList

/-- JavaScript String.prototype.startsWith, on the character lists. -/
def strStartsWith (s pre : String) : Bool :=
  pre.toList.isPrefixOf s.toList

/-- JavaScript String.prototype.endsWith, on the character lists. -/
def strEndsWith (s suf : String) : Bool :=
  suf.toList.isSuffixOf s.toList

/-- JavaScript String.prototype.toUpperCase (ASCII range, which covers every
environment variable name in play). -/
def strToUpper (s : String) : String :=
  ⟨s.toList.map Char.toUpper⟩

/-- JavaScript String.prototype.replaceAll on character lists: leftmost,
non-overlapping occurrences of a non-empty pattern. The fuel argument makes
the recursion structural; every step consumes at least one character, so fuel
equal to the length of the string is always enough. -/
def replaceAllCharsFuel (pat rep : List Char) : Nat → List Char → List Char
  | 0, s => s
  | _ + 1, [] => []
  | fuel + 1, c :: rest =>
    if pat ≠ [] ∧ pat.isPrefixOf (c :: rest) then
      rep ++ replaceAllCharsFuel pat rep fuel ((c :: rest).drop pat.length)
    else c :: replaceAllCharsFuel pat rep fuel rest

/-- JavaScript String.prototype.replaceAll. -/
def strReplaceAll (s pat rep : String) : String :=
  ⟨replaceAllCharsFuel pat.toList rep.toList s.toList.length s.toList⟩

/-! ## src/src/env.ts -/

/-- BLOCKED_ENV_EXACT from src/src/env.ts. -/
def BLOCKED_ENV_EXACT : List String :=
  ["ANTHROPIC_API_KEY", "OPENAI_API_KEY", "AWS_SECRET_ACCESS_KEY",
   "AWS_SESSION_TOKEN", "GITHUB_TOKEN"]

/-- BLOCKED_ENV_SUFFIXES from src/src/env.ts. -/
def BLOCKED_ENV_SUFFIXES : List String := ["_TOKEN", "_SECRET", "_PASSWORD", "_API_KEY"]

/-- isBlockedEnvVar from src/src/env.ts: exact-name match, then
case-insensitive suffix match on the upper-cased name. -/
def isBlockedEnvVar (name : String) : Bool :=
  if BLOCKED_ENV_EXACT.contains name then true
  else BLOCKED_ENV_SUFFIXES.any fun s => strEndsWith (strToUpper name) s

/-- filterEnv from src/src/env.ts. A process environment is an association
list of names to optional values (undefined entries carry none); the filter
drops undefined values and every blocked name. -/
def filterEnv (env : List (String × Option String)) : List (String × String) :=
  env.filterMap fun kv =>
    match kv.2 with
    | some v => if isBlockedEnvVar kv.1 then none else some (kv.1, v)
    | none => none

/-- JavaScript object spread for two string records: keys of the first in
order with overridden values, then the new keys of the second. -/
def spreadMerge (a b : List (String × String)) : List (String × String) :=
  (a.map fun kv =>
    match b.lookup kv.1 with
    | some v => (kv.1, v)
    | none => kv) ++
  b.filter fun kv => (a.lookup kv.1).isNone

/-- The child environment built by createMcpClient in
src/src/tools/mcp-client.ts: safeEnv = filterEnv(process.env); the spawned
transport receives either safeEnv alone or the per-server configured env
spread over safeEnv. -/
def mcpChildEnv (optionsEnv : Option (List (String × String)))
    (processEnv : List (String × Option String)) : List (String × String) :=
  let safeEnv := filterEnv processEnv
  match optionsEnv with
  | some oe => spreadMerge safeEnv oe
  | none => safeEnv

/-! ## Tool registry (src/src/tools/registry.ts and src/unnamed/part_005) -/

/-- RegisteredTool from src/src/tools/registry.ts (the inputSchema field is an
opaque JSON object not used by any claim and is omitted). -/
structure RegisteredTool where
  name : String
  serverName : String
  originalName : String
  description : Option String
  source : String
deriving DecidableEq, Repr

/-- One raw tool as returned by client.listTools() in registerServer. -/
structure McpToolSpec where
  name : String
  description : Option String
deriving DecidableEq, Repr

/-- ServerEntry from src/src/tools/registry.ts: the client field is null for
local in-process servers (modelled as none); the handler map is modelled by
its presence flag since no claim calls a handler through it. -/
structure ServerEntry where
  client : Option Unit
  tools : List (String × RegisteredTool)
  hasLocalHandlers : Bool
  source : String
deriving DecidableEq, Repr

/-- The module-level servers Map, as an insertion-ordered association list. -/
abbrev ServersMap := List (String × ServerEntry)

/-- A JavaScript exception: TypeError (null dereference) or a plain Error. -/
inductive JsError
  | typeError (msg : String)
  | jsErr (msg : String)
deriving DecidableEq, Repr

/-- The message of the TypeError thrown by evaluating null.disconnect
(quotation marks of the runtime message are dropped). -/
def TYPE_ERROR_NULL_DISCONNECT : String :=
  "Cannot read properties of null (reading disconnect)"

/-- JavaScript Map.prototype.set on the association-list model: overwrite in
place when the key exists, append otherwise. -/
def mapSet (m : ServersMap) (k : String) (v : ServerEntry) : ServersMap :=
  if m.any fun kv => kv.1 == k then
    m.map fun kv => if kv.1 == k then (k, v) else kv
  else m ++ [(k, v)]

/-- The tool map built inside registerServer from the raw listTools result. -/
def buildServerTools (name source : String) (raw : List McpToolSpec) :
    List (String × RegisteredTool) :=
  raw.map fun t =>
    (t.name, { name := name ++ "." ++ t.name, serverName := name,
               originalName := t.name, description := t.description,
               source := source })

/-- The connect-then-register tail of registerServer: createMcpClient plus
client.listTools() is one oracle outcome; on success the entry is stored. -/
def registerServerConnect (m : ServersMap) (name : String)
    (connect : Except String (List McpToolSpec)) (source : String) :
    Except JsError (List RegisteredTool) × ServersMap :=
  match connect with
  | .error e => (.error (.jsErr e), m)
  | .ok raw =>
    let tools := buildServerTools name source raw
    (.ok (tools.map (·.2)),
     mapSet m name { client := some (), tools := tools,
                     hasLocalHandlers := false, source := source })

/-- registerServer from src/src/tools/registry.ts. With an existing entry and
replace set, the code evaluates existing.client.disconnect() with no null
guard: a local-server entry (client null) raises a TypeError before any new
connection is attempted, and the map is left untouched. Disconnect rejections
of a real adapter are swallowed by the attached catch handler. -/
def registerServer (m : ServersMap) (name : String)
    (connect : Except String (List McpToolSpec)) (source : String)
    (replace : Bool) : Except JsError (List RegisteredTool) × ServersMap :=
  match m.lookup name with
  | some existing =>
    if replace then
      match existing.client with
      | none => (.error (.typeError TYPE_ERROR_NULL_DISCONNECT), m)
      | some _ => registerServerConnect m name connect source
    else
      (.ok (existing.tools.map (·.2)), m)
  | none => registerServerConnect m name connect source

/-- One local tool definition passed to registerLocalServer (the handler
function itself is not modelled; only registration state matters here). -/
structure LocalToolDef where
  name : String
  description : String
deriving DecidableEq, Repr

/-- registerLocalServer from src/src/tools/registry.ts: stores an entry with a
null client and in-process handlers. -/
def registerLocalServer (m : ServersMap) (name : String)
    (toolDefs : List LocalToolDef) (source : String) :
    List RegisteredTool × ServersMap :=
  let tools : List (String × RegisteredTool) := toolDefs.map fun t =>
    (t.name, { name := name ++ "." ++ t.name, serverName := name,
               originalName := t.name, description := some t.description,
               source := source })
  (tools.map (·.2),
   mapSet m name { client := none, tools := tools,
                   hasLocalHandlers := true, source := source })

/-- Promise.allSettled over already-created promises: absorbs every rejection. -/
inductive SettledResult
  | fulfilled
  | rejected (e : JsError)
deriving DecidableEq, Repr

/-- Promise.allSettled on a list of promise results. -/
def promiseAllSettled (xs : List (Except JsError Unit)) : List SettledResult :=
  xs.map fun x =>
    match x with
    | .ok _ => .fulfilled
    | .error e => .rejected e

/-- entries.map((e) => e.client.disconnect()) from src/src/tools/registry.ts:
the callback dereferences client with no null guard, so the first entry with a
null client raises a TypeError synchronously, before Promise.allSettled ever
runs. disc gives the eventual outcome of each real disconnect call. -/
def mapClientDisconnects (disc : Nat → Except JsError Unit) :
    List ServerEntry → Nat → Except JsError (List (Except JsError Unit))
  | [], _ => .ok []
  | e :: rest, i =>
    match e.client with
    | none => .error (.typeError TYPE_ERROR_NULL_DISCONNECT)
    | some _ =>
      match mapClientDisconnects disc rest (i + 1) with
      | .error err => .error err
      | .ok ps => .ok (disc i :: ps)

/-- disconnectAll as written in src/src/tools/registry.ts (the TypeScript
source): snapshot entries, clear the map, then map e.client.disconnect() over
the entries and await Promise.allSettled. -/
def disconnectAllSrc (m : ServersMap) (disc : Nat → Except JsError Unit) :
    Except JsError Unit × ServersMap :=
  let entries := m.map (·.2)
  match mapClientDisconnects disc entries 0 with
  | .error e => (.error e, [])
  | .ok ps =>
    let _settled := promiseAllSettled ps
    (.ok (), [])

/-- disconnectAll as shipped in the compiled build src/unnamed/part_005: the
callback is e.client?.disconnect(), so a null client short-circuits to
undefined (a fulfilled slot) and Promise.allSettled absorbs every rejection. -/
def disconnectAllDist (m : ServersMap) (disc : Nat → Except JsError Unit) :
    Except JsError Unit × ServersMap :=
  let entries := m.map (·.2)
  let promises := entries.enum.map fun p =>
    match p.2.client with
    | none => Except.ok ()
    | some _ => disc p.1
  let _settled := promiseAllSettled promises
  (.ok (), [])

/-! ## Run/event trace store (src/unnamed/part_015) -/

/-- Run status column values. -/
inductive RunStatus
  | running
  | completed
  | error
deriving DecidableEq, Repr

/-- The columns of one runs row that the claims observe. -/
structure RunRecord where
  status : RunStatus
  output : Option String
  errorMsg : Option String
  totalInputTokens : Nat
  totalOutputTokens : Nat
  costUsd : Rat
  toolCalls : Nat
deriving DecidableEq, Repr

/-- createRun: a fresh row with status running and empty counters. -/
def createdRun : RunRecord :=
  { status := .running, output := none, errorMsg := none,
    totalInputTokens := 0, totalOutputTokens := 0, costUsd := 0, toolCalls := 0 }

/-- The result object both provider loops return to runAgent. -/
structure LoopResult where
  output : String
  totalToolCalls : Nat
  totalInputTokens : Nat
  totalOutputTokens : Nat
deriving DecidableEq, Repr

/-- completeRun from src/unnamed/part_015: the terminal success write. -/
def completeRun (r : RunRecord) (res : LoopResult) (costUsd : Rat) : RunRecord :=
  { r with status := .completed, output := some res.output,
           totalInputTokens := res.totalInputTokens,
           totalOutputTokens := res.totalOutputTokens,
           costUsd := costUsd, toolCalls := res.totalToolCalls }

/-- failRun from src/unnamed/part_015: the terminal failure write. -/
def failRun (r : RunRecord) (error : String) : RunRecord :=
  { r with status := .error, errorMsg := some error }

/-- MODEL_PRICING from src/unnamed/part_015 (dollars per million tokens). -/
def MODEL_PRICING : List (String × Nat × Nat) :=
  [("claude-sonnet-4-5-20250514", (3, 15)), ("claude-sonnet-4-20250514", (3, 15))]

/-- costForModel from src/unnamed/part_015: unknown models price at zero. -/
def costForModel (model : String) (inputTokens outputTokens : Nat) : Rat :=
  match MODEL_PRICING.lookup model with
  | none => 0
  | some p => ((inputTokens * p.1 + outputTokens * p.2 : Nat) : Rat) / 1000000

/-- One runs row as read back by getRun (identifying columns only; the other
columns ride along unchanged and are irrelevant to the lookup logic). -/
structure RunRow where
  id : String
  agentName : String
  status : String
deriving DecidableEq, Repr

/-- One events row. -/
structure EventRow where
  id : Nat
  runId : String
  etype : String
  payload : Option String
deriving DecidableEq, Repr

/-- SQL LIKE matching as SQLite evaluates the pattern of getRun: percent
matches any run of characters (some suffix of the rest matches the rest of the
pattern), underscore matches one character, plain characters compare
ASCII-case-insensitively. -/
def likeMatchChars : List Char → List Char → Bool
  | [], s => s.isEmpty
  | p :: ps, s =>
    if p = '%' then s.tails.any fun t => likeMatchChars ps t
    else if p = '_' then
      match s with
      | [] => false
      | _ :: ss => likeMatchChars ps ss
    else
      match s with
      | [] => false
      | c :: ss => (p.toLower == c.toLower) && likeMatchChars ps ss

/-- The prefix query of getRun: SELECT * FROM runs WHERE id LIKE ? || percent. -/
def likeMatch (idOrPrefix id : String) : Bool :=
  likeMatchChars (idOrPrefix.toList ++ ['%']) id.toList

/-- Insert one event row into a list sorted by ascending id. -/
def insertSortedByKey (e : EventRow) : List EventRow → List EventRow
  | [] => [e]
  | x :: xs => if e.id ≤ x.id then e :: x :: xs else x :: insertSortedByKey e xs

/-- ORDER BY id ASC on a list of event rows. -/
def sortEventsById (l : List EventRow) : List EventRow :=
  l.foldr insertSortedByKey []

/-- SELECT * FROM events WHERE run_id = ? ORDER BY id ASC. -/
def fetchRunEvents (events : List EventRow) (id : String) : List EventRow :=
  sortEventsById (events.filter fun e => e.runId == id)

/-- The record getRun returns: the run row with its ordered event list. -/
structure RunView where
  run : RunRow
  events : List EventRow
deriving DecidableEq, Repr

/-- getRun from src/unnamed/part_015: exact-id match first; on miss a LIKE
prefix match over all rows; zero matches is a null result, more than one is
the distinct ambiguity error, one is resolved like an exact hit. -/
def getRun (runs : List RunRow) (events : List EventRow) (idOrPrefix : String) :
    Except String (Option RunView) :=
  match runs.find? (fun r => r.id == idOrPrefix) with
  | some run => .ok (some { run := run, events := fetchRunEvents events run.id })
  | none =>
    match runs.filter fun r => likeMatch idOrPrefix r.id with
    | [] => .ok none
    | [run] => .ok (some { run := run, events := fetchRunEvents events run.id })
    | _ => .error "Ambiguous run ID prefix, be more specific"

/-! ## Scheduler (src/src/scheduler.ts) -/

/-- parseCronTriggers: keep the cron: entries, strip the five-character tag. -/
def parseCronTriggers (triggers : List String) : List String :=
  (triggers.filter fun t => strStartsWith t "cron:").map fun t => t.drop 5

/-- The body of the for loop of computeNextRun: keep the earliest next fire
instant seen so far. -/
def earliestStep (nextFire : String → Nat) (earliest : Option Nat) (expr : String) :
    Option Nat :=
  let next := nextFire expr
  match earliest with
  | none => some next
  | some cur => if next < cur then some next else earliest

/-- computeNextRun from src/src/scheduler.ts. The external cron parser is the
oracle nextFire, giving each expression its next fire instant (a timestamp as
a Nat; the code converts the winning Date to an ISO string, an
order-preserving step omitted here). The fold mirrors the for loop keeping the
earliest instant seen. -/
def computeNextRun (nextFire : String → Nat) (triggers : List String) : Option Nat :=
  let exprs := parseCronTriggers triggers
  if exprs.isEmpty then none
  else exprs.foldl (earliestStep nextFire) none

/-! ## Runner constants and model routing (src/unnamed/part_021) -/

def MAX_RETRIES : Nat := 3

def DEFAULT_RETRY_DELAY_MS : Nat := 60000

def MAX_ITERATIONS : Nat := 20

def toAnthropicName (name : String) : String := strReplaceAll name "." "__"

def fromAnthropicName (name : String) : String := strReplaceAll name "__" "."

def toOllamaToolName (name : String) : String := strReplaceAll name "." "__"

def fromOllamaToolName (name : String) : String := strReplaceAll name "__" "."

inductive ProviderType
  | anthropic
  | ollama
deriving DecidableEq, Repr

structure Provider where
  ptype : ProviderType
  model : String
deriving DecidableEq, Repr

/-- parseModelProvider from src/unnamed/part_021: claude- prefixed models go
to the Anthropic provider, ollama/ prefixed models to Ollama (with the prefix
stripped and an emptiness check), anything else throws. -/
def parseModelProvider (model : String) : Except String Provider :=
  if strStartsWith model "claude-" then .ok { ptype := .anthropic, model := model }
  else if strStartsWith model "ollama/" then
    let ollamaModel := model.drop "ollama/".length
    if ollamaModel == "" then
      .error ("Invalid model \"" ++ model ++ "\": missing model name after \"ollama/\"")
    else .ok { ptype := .ollama, model := ollamaModel }
  else
    .error ("Unknown model \"" ++ model ++
      "\". Model must start with \"claude-\" or \"ollama/\" (e.g. \"claude-sonnet-4-20250514\", \"ollama/llama3.3:70b\")")

/-- One provider error as the retry classifier sees it: an optional HTTP
status and, for 429 responses, the parsed positive numeric retry-after header
in seconds when one was present. -/
structure ApiError where
  status : Option Nat
  retryAfterSecs : Option Nat
  message : String
deriving DecidableEq, Repr

/-- isTransientError from src/unnamed/part_021, folded to its observable
content: some delayMs when the error is transient (429 uses the retry-after
hint scaled to milliseconds, else the 60 s default; 500, 502, 503 and 529 use
a fixed 5 s), none when the error is not retried. -/
def transientRetryMs (e : ApiError) : Option Nat :=
  match e.status with
  | some 429 =>
    some (match e.retryAfterSecs with
          | some secs => secs * 1000
          | none => DEFAULT_RETRY_DELAY_MS)
  | some s => if s == 500 || s == 502 || s == 503 || s == 529 then some 5000 else none
  | none => none

/-! ## Events (logEvent payload fields the claims observe) -/

inductive Event
  | llmCall (model : String) (inputTokens outputTokens : Nat)
  | toolCall (tool : String) (isError : Bool)
  | retry (attempt : Nat) (maxRetries : Nat) (delayMs : Nat)
  | error (message : String)
deriving DecidableEq, Repr

/-- Whether an event is a retry event. -/
def Event.isRetry : Event → Bool
  | .retry _ _ _ => true
  | _ => false

/-! ## Anthropic loop (src/unnamed/part_021, runAnthropicLoop) -/

structure Usage where
  inputTokens : Nat
  outputTokens : Nat
deriving DecidableEq, Repr

inductive ContentBlock
  | text (t : String)
  | toolUse (id : String) (name : String) (input : String)
deriving DecidableEq, Repr

inductive StopReason
  | endTurn
  | maxTokens
  | toolUse
  | other (s : String)
deriving DecidableEq, Repr

structure AnthropicResponse where
  stopReason : StopReason
  content : List ContentBlock
  usage : Usage
deriving DecidableEq, Repr

/-- Outcome of one client.messages.create attempt. -/
inductive ApiOutcome
  | ok (r : AnthropicResponse)
  | err (e : ApiError)
deriving DecidableEq, Repr

/-- Outcome of one callTool invocation: a returned result envelope (content
already JSON-stringified) with its isError flag, or a thrown exception. -/
inductive ToolOutcome
  | ok (content : String) (isError : Bool)
  | threw (msg : String)
deriving DecidableEq, Repr

/-- The inner retry loop around client.messages.create. oracle gives the
outcome of each attempt; fuel is the number of retries still allowed
(MAX_RETRIES minus attempt). Retry events are recorded whether or not the
budget is eventually exhausted, matching logEvent persistence. -/
def llmCallWithRetries (oracle : Nat → ApiOutcome) :
    Nat → Nat → Except ApiError AnthropicResponse × List Event
  | attempt, fuel =>
    match oracle attempt with
    | .ok r => (.ok r, [])
    | .err e =>
      match transientRetryMs e with
      | none => (.error e, [])
      | some delayMs =>
        match fuel with
        | 0 => (.error e, [])
        | fuel' + 1 =>
          let rest := llmCallWithRetries oracle (attempt + 1) fuel'
          (rest.1, .retry (attempt + 1) MAX_RETRIES delayMs :: rest.2)

structure ToolResultBlock where
  toolUseId : String
  isError : Bool
  content : String
deriving DecidableEq, Repr

inductive AnthropicMessage
  | user (content : String)
  | assistant (content : List ContentBlock)
  | toolResults (results : List ToolResultBlock)
deriving DecidableEq, Repr

/-- The tool-result block built for one tool_use block from its outcome: a
returned envelope keeps its own isError flag, a thrown exception becomes an
error-flagged block carrying the message. -/
def mkToolResultBlock (outcome : ToolOutcome) (id : String) : ToolResultBlock :=
  match outcome with
  | .ok content isErr => { toolUseId := id, isError := isErr, content := content }
  | .threw msg => { toolUseId := id, isError := true, content := msg }

/-- The tool_call event logged for one tool_use block from its outcome. -/
def mkToolCallEvent (outcome : ToolOutcome) (originalName : String) : Event :=
  match outcome with
  | .ok _ isErr => .toolCall originalName isErr
  | .threw _ => .toolCall originalName true

/-- The inner for loop over the content blocks of a tool_use response: every
tool_use block increments the counter and yields one event and one result
block; text blocks are skipped. The second argument indexes tool invocations
for the per-iteration tool oracle. -/
def processToolUses (toolO : Nat → ToolOutcome) :
    List ContentBlock → Nat → List ToolResultBlock × List Event × Nat
  | [], _ => ([], [], 0)
  | .text _ :: rest, j => processToolUses toolO rest j
  | .toolUse id name _input :: rest, j =>
    let originalName := fromAnthropicName name
    let resBlock := mkToolResultBlock (toolO j) id
    let ev := mkToolCallEvent (toolO j) originalName
    let next := processToolUses toolO rest (j + 1)
    (resBlock :: next.1, ev :: next.2.1, next.2.2 + 1)

structure AnthropicState where
  messages : List AnthropicMessage
  totalToolCalls : Nat
  totalInputTokens : Nat
  totalOutputTokens : Nat
  output : String
  events : List Event
deriving DecidableEq, Repr

/-- The environment of one Anthropic run: llm i a is the outcome of attempt a
of the LLM call of iteration i; tool i j is the outcome of the j-th tool
invocation of iteration i. -/
structure AnthropicEnv where
  llm : Nat → Nat → ApiOutcome
  tool : Nat → Nat → ToolOutcome

def textPartsOf (content : List ContentBlock) : List String :=
  content.filterMap fun b =>
    match b with
    | .text t => some t
    | _ => none

/-- textParts.join of the final response. -/
def joinTextParts (content : List ContentBlock) : String :=
  String.intercalate "\n" (textPartsOf content)

def TRUNCATION_WARNING : String := "\n[warning: response truncated due to max_tokens]"

def ITERATION_SENTINEL : String :=
  "[warning: agent reached maximum iteration limit (20) without producing a final response]"

/-- One pass of the for loop of runAnthropicLoop: i is the iteration index,
fuel is MAX_ITERATIONS - i. A thrown provider error carries the state (events
already logged persist); ending the loop returns the state. -/
def anthropicIter (env : AnthropicEnv) (model : String) :
    Nat → Nat → AnthropicState → Except (ApiError × AnthropicState) AnthropicState
  | _, 0, st => .ok st
  | i, fuel + 1, st =>
    let call := llmCallWithRetries (env.llm i) 0 MAX_RETRIES
    match call.1 with
    | .error e => .error (e, { st with events := st.events ++ call.2 })
    | .ok r =>
      let st := { st with
        totalInputTokens := st.totalInputTokens + r.usage.inputTokens,
        totalOutputTokens := st.totalOutputTokens + r.usage.outputTokens,
        events := st.events ++ call.2 ++
          [.llmCall model r.usage.inputTokens r.usage.outputTokens] }
      match r.stopReason with
      | .endTurn => .ok { st with output := joinTextParts r.content }
      | .maxTokens =>
        .ok { st with output := joinTextParts r.content ++ TRUNCATION_WARNING }
      | .toolUse =>
        let st := { st with
          messages := st.messages ++ [AnthropicMessage.assistant r.content] }
        let processed := processToolUses (env.tool i) r.content 0
        let st := { st with
          totalToolCalls := st.totalToolCalls + processed.2.2,
          events := st.events ++ processed.2.1,
          messages := st.messages ++ [AnthropicMessage.toolResults processed.1] }
        anthropicIter env model (i + 1) fuel st
      | .other _ => anthropicIter env model (i + 1) fuel st

/-- runAnthropicLoop from src/unnamed/part_021: seed the conversation with the
context (or the Go. default), run up to MAX_ITERATIONS turns, and replace an
empty output with the iteration-ceiling sentinel. -/
def runAnthropicLoop (env : AnthropicEnv) (model : String) (context : Option String) :
    Except (ApiError × AnthropicState) (LoopResult × AnthropicState) :=
  let st0 : AnthropicState :=
    { messages := [.user (context.getD "Go.")], totalToolCalls := 0,
      totalInputTokens := 0, totalOutputTokens := 0, output := "", events := [] }
  match anthropicIter env model 0 MAX_ITERATIONS st0 with
  | .error e => .error e
  | .ok st =>
    let out := if st.output == "" then ITERATION_SENTINEL else st.output
    .ok ({ output := out, totalToolCalls := st.totalToolCalls,
           totalInputTokens := st.totalInputTokens,
           totalOutputTokens := st.totalOutputTokens },
         { st with output := out })

/-! ## Ollama loop (src/src/ollama.ts) -/

structure OllamaToolCall where
  id : String
  fnName : String
  argumentsJson : String
deriving DecidableEq, Repr

structure OllamaUsage where
  promptTokens : Nat
  completionTokens : Nat
deriving DecidableEq, Repr

structure OllamaChoiceMsg where
  content : Option String
  toolCalls : List OllamaToolCall
deriving DecidableEq, Repr

structure OllamaChoice where
  message : OllamaChoiceMsg
  finishReason : String
deriving DecidableEq, Repr

structure OllamaResponse where
  choices : List OllamaChoice
  usage : Option OllamaUsage
deriving DecidableEq, Repr

/-- Outcome of the fetch to the chat completions endpoint of one iteration:
a parsed ok response, a non-ok HTTP status with its body text, or a thrown
network error (flagged when it is a TypeError whose message mentions fetch). -/
inductive OllamaFetchOutcome
  | ok (r : OllamaResponse)
  | httpError (status : Nat) (text : String)
  | netError (isTypeError : Bool) (msg : String)
deriving Repr

def OLLAMA_HOST : String := "http://localhost:11434"

def CANNOT_REACH_OLLAMA : String :=
  "Cannot reach Ollama at " ++ OLLAMA_HOST ++ " — is it running?"

/-- The try/catch around the fetch in runOllamaLoop. A non-ok response throws
Ollama returned HTTP ...; the catch block rewrites fetch TypeErrors and
messages mentioning ECONNREFUSED or connect into the cannot-reach error and
rethrows everything else. There is no retry of any kind. -/
def ollamaFetchResult : OllamaFetchOutcome → Except String OllamaResponse
  | .ok r => .ok r
  | .httpError status text =>
    let m := "Ollama returned HTTP " ++ toString status ++ ": " ++ text
    if containsSubstr m "ECONNREFUSED" || containsSubstr m "connect" then
      .error CANNOT_REACH_OLLAMA
    else .error m
  | .netError isTypeError msg =>
    if isTypeError && containsSubstr msg "fetch" then .error CANNOT_REACH_OLLAMA
    else if containsSubstr msg "ECONNREFUSED" || containsSubstr msg "connect" then
      .error CANNOT_REACH_OLLAMA
    else .error msg

/-- The message content pushed back for one tool call: the stringified result
envelope, or the stringified error object for a thrown exception. -/
inductive OllamaToolContent
  | result (json : String)
  | errorObj (msg : String)
deriving DecidableEq, Repr

inductive OllamaMessage
  | system (content : String)
  | user (content : String)
  | assistant (content : Option String) (toolCalls : List OllamaToolCall)
  | tool (toolCallId : String) (content : OllamaToolContent)
deriving DecidableEq, Repr

/-- The tool message built for one ollama tool call from its outcome. -/
def mkOllamaToolMessage (outcome : ToolOutcome) (id : String) : OllamaMessage :=
  match outcome with
  | .ok content _ => .tool id (.result content)
  | .threw msg => .tool id (.errorObj msg)

/-- The for loop over the tool calls of one ollama assistant turn: every call
increments the counter and yields one event and one tool message; a thrown
exception is caught and becomes an error-flagged event plus an error object
message. -/
def processOllamaToolCalls (toolO : Nat → ToolOutcome) :
    List OllamaToolCall → Nat → List OllamaMessage × List Event × Nat
  | [], _ => ([], [], 0)
  | tc :: rest, j =>
    let originalName := fromOllamaToolName tc.fnName
    let msg := mkOllamaToolMessage (toolO j) tc.id
    let ev := mkToolCallEvent (toolO j) originalName
    let next := processOllamaToolCalls toolO rest (j + 1)
    (msg :: next.1, ev :: next.2.1, next.2.2 + 1)

structure OllamaState where
  messages : List OllamaMessage
  totalToolCalls : Nat
  totalInputTokens : Nat
  totalOutputTokens : Nat
  output : String
  events : List Event
deriving DecidableEq, Repr

/-- The environment of one Ollama run: fetch i is the outcome of the single
HTTP call of iteration i (there is no retry), tool i j the outcome of its j-th
tool call. -/
structure OllamaEnv where
  fetch : Nat → OllamaFetchOutcome
  tool : Nat → Nat → ToolOutcome

/-- One pass of the for loop of runOllamaLoop. The empty-choices check throws
before the llm_call event is logged, matching the statement order of the
source. -/
def ollamaIter (env : OllamaEnv) (model : String) :
    Nat → Nat → OllamaState → Except (String × OllamaState) OllamaState
  | _, 0, st => .ok st
  | i, fuel + 1, st =>
    match ollamaFetchResult (env.fetch i) with
    | .error m => .error (m, st)
    | .ok resp =>
      match resp.choices with
      | [] => .error ("Ollama returned empty response (no choices)", st)
      | choice :: _ =>
        let inputTokens := (resp.usage.map (·.promptTokens)).getD 0
        let outputTokens := (resp.usage.map (·.completionTokens)).getD 0
        let st := { st with
          totalInputTokens := st.totalInputTokens + inputTokens,
          totalOutputTokens := st.totalOutputTokens + outputTokens,
          events := st.events ++ [Event.llmCall model inputTokens outputTokens] }
        match choice.message.toolCalls with
        | [] =>
          let out := choice.message.content.getD ""
          let out := if choice.finishReason == "length" then out ++ TRUNCATION_WARNING
                     else out
          .ok { st with output := out }
        | tcs =>
          let st := { st with
            messages := st.messages ++
              [OllamaMessage.assistant choice.message.content tcs] }
          let processed := processOllamaToolCalls (env.tool i) tcs 0
          let st := { st with
            totalToolCalls := st.totalToolCalls + processed.2.2,
            events := st.events ++ processed.2.1,
            messages := st.messages ++ processed.1 }
          ollamaIter env model (i + 1) fuel st

/-- runOllamaLoop from src/src/ollama.ts: system prompt and initial message
seed the conversation, up to MAX_ITERATIONS turns, and an empty output is
replaced with the iteration-ceiling sentinel. -/
def runOllamaLoop (env : OllamaEnv) (model systemPrompt initialMessage : String) :
    Except (String × OllamaState) (LoopResult × OllamaState) :=
  let st0 : OllamaState :=
    { messages := [.system systemPrompt, .user initialMessage],
      totalToolCalls := 0, totalInputTokens := 0, totalOutputTokens := 0,
      output := "", events := [] }
  match ollamaIter env model 0 MAX_ITERATIONS st0 with
  | .error e => .error e
  | .ok st =>
    let out := if st.output == "" then ITERATION_SENTINEL else st.output
    .ok ({ output := out, totalToolCalls := st.totalToolCalls,
           totalInputTokens := st.totalInputTokens,
           totalOutputTokens := st.totalOutputTokens },
         { st with output := out })

/-! ## runAgent (src/unnamed/part_021) -/

structure Agent where
  model : String
  prompt : String
  tools : List String
deriving DecidableEq, Repr

/-- resolveTools from src/unnamed/part_021: a dotted spec picks the first
registry tool with that exact name, a bare server name picks every tool of
that server. -/
def resolveTools (registryTools : List RegisteredTool) (agent : Agent) :
    List RegisteredTool :=
  agent.tools.foldr (fun toolSpec acc =>
    (if toolSpec.toList.contains '.' then
      match registryTools.find? fun t => t.name == toolSpec with
      | some t => [t]
      | none => []
    else
      registryTools.filter fun t => t.serverName == toolSpec) ++ acc) []

def API_KEY_NOT_FOUND : String :=
  "Anthropic API key not found. Set ANTHROPIC_API_KEY env var or add api_key to ~/.agentd/config.yaml"

/-- The oracles of one run for both provider variants. -/
structure RunnerEnv where
  anthropic : AnthropicEnv
  ollamaFetch : Nat → OllamaFetchOutcome
  ollamaTool : Nat → Nat → ToolOutcome

/-- What one call of runAgent leaves behind: its return-or-throw outcome, the
final runs row of this run, and the events logged for it. -/
structure RunAgentOutcome where
  result : Except String LoopResult
  record : RunRecord
  events : List Event
deriving Repr

/-- runAgent from src/unnamed/part_021. Exactly as in the source: the missing
agent and the missing API key are failed explicitly with an error event plus
failRun before the guarded section; parseModelProvider is called OUTSIDE the
try/catch, so its exception escapes with no error event and no failRun and the
run row stays in status running; everything inside the try is converted into
completeRun on success or an error event plus failRun plus a rethrow on
failure. -/
def runAgent (agentName : String) (agent? : Option Agent) (apiKey? : Option String)
    (registryTools : List RegisteredTool) (env : RunnerEnv)
    (context : Option String) : RunAgentOutcome :=
  match agent? with
  | none =>
    let msg := "Agent \"" ++ agentName ++ "\" not found"
    { result := .error msg, record := failRun createdRun msg, events := [.error msg] }
  | some agent =>
    match parseModelProvider agent.model with
    | .error msg =>
      { result := .error msg, record := createdRun, events := [] }
    | .ok provider =>
      let _resolvedTools := resolveTools registryTools agent
      match provider.ptype, apiKey? with
      | .anthropic, none =>
        { result := .error API_KEY_NOT_FOUND,
          record := failRun createdRun API_KEY_NOT_FOUND,
          events := [.error API_KEY_NOT_FOUND] }
      | .anthropic, some _ =>
        match runAnthropicLoop env.anthropic provider.model context with
        | .ok (res, st) =>
          { result := .ok res,
            record := completeRun createdRun res
              (costForModel agent.model res.totalInputTokens res.totalOutputTokens),
            events := st.events }
        | .error (e, st) =>
          { result := .error e.message,
            record := failRun createdRun e.message,
            events := st.events ++ [.error e.message] }
      | .ollama, _ =>
        match runOllamaLoop { fetch := env.ollamaFetch, tool := env.ollamaTool }
            provider.model agent.prompt (context.getD "Go.") with
        | .ok (res, st) =>
          { result := .ok res,
            record := completeRun createdRun res 0,
            events := st.events }
        | .error (msg, st) =>
          { result := .error msg,
            record := failRun createdRun msg,
            events := st.events ++ [.error msg] }

/-! ## Result accessors used by the theorems -/

/-- The thrown message of a runAgent outcome, if any. -/
def runResultError? : Except String LoopResult → Option String
  | .error m => some m
  | .ok _ => none

/-- The returned loop result of a runAgent outcome, if any. -/
def runResultOk? : Except String LoopResult → Option LoopResult
  | .ok r => some r
  | .error _ => none

/-- The final output of a successful Anthropic loop, if any. -/
def anthropicLoopOutput? :
    Except (ApiError × AnthropicState) (LoopResult × AnthropicState) → Option String
  | .ok (res, _) => some res.output
  | .error _ => none

/-- The final output of a successful Ollama loop, if any. -/
def ollamaLoopOutput? :
    Except (String × OllamaState) (LoopResult × OllamaState) → Option String
  | .ok (res, _) => some res.output
  | .error _ => none

/-- The events a finished or failed Ollama loop has logged. -/
def ollamaLoopEvents : Except (String × OllamaState) (LoopResult × OllamaState) → List Event
  | .ok (_, st) => st.events
  | .error (_, st) => st.events

/-- The events an Ollama loop iteration has logged, in both exits. -/
def ollamaIterEvents : Except (String × OllamaState) OllamaState → List Event
  | .ok st => st.events
  | .error (_, st) => st.events

/-- Whether an Ollama loop run ended by throwing. -/
def ollamaLoopFailed : Except (String × OllamaState) (LoopResult × OllamaState) → Bool
  | .error _ => true
  | .ok _ => false

/-! ## Shared list lemmas -/

theorem lookup_append_eq (l₁ l₂ : List (String × String)) (k : String) :
    (l₁ ++ l₂).lookup k =
      match l₁.lookup k with
      | some v => some v
      | none => l₂.lookup k := by
  induction l₁ with
  | nil => simp [List.lookup]
  | cons x xs ih =>
    obtain ⟨k1, v1⟩ := x
    cases h : k == k1 with
    | true => simp [List.lookup, h]
    | false => simp [List.lookup, h, ih]

/-! ## C8: computeNextRun -/

theorem earliestStep_foldl_some (nextFire : String → Nat) :
    ∀ (l : List String) (a : Nat),
      ∃ m, l.foldl (earliestStep nextFire) (some a) = some m ∧ m ≤ a ∧
        (∀ e ∈ l, m ≤ nextFire e) ∧ (m = a ∨ ∃ e ∈ l, m = nextFire e) := by
  intro l
  induction l with
  | nil => exact fun a => ⟨a, rfl, Nat.le_refl a, by simp, Or.inl rfl⟩
  | cons x xs ih =>
    intro a
    by_cases h : nextFire x < a
    · obtain ⟨m, hm, hle, hall, hor⟩ := ih (nextFire x)
      have hstep : earliestStep nextFire (some a) x = some (nextFire x) := by
        simp [earliestStep, h]
      refine ⟨m, by rw [List.foldl_cons, hstep]; exact hm, by omega, ?_, ?_⟩
      · intro e he
        rcases List.mem_cons.mp he with rfl | he
        · exact hle
        · exact hall e he
      · rcases hor with rfl | ⟨e, he, rfl⟩
        · exact Or.inr ⟨x, List.mem_cons_self .., rfl⟩
        · exact Or.inr ⟨e, List.mem_cons_of_mem _ he, rfl⟩
    · obtain ⟨m, hm, hle, hall, hor⟩ := ih a
      have hstep : earliestStep nextFire (some a) x = some a := by
        simp [earliestStep, h]
      refine ⟨m, by rw [List.foldl_cons, hstep]; exact hm, hle, ?_, ?_⟩
      · intro e he
        rcases List.mem_cons.mp he with rfl | he
        · omega
        · exact hall e he
      · rcases hor with rfl | ⟨e, he, rfl⟩
        · exact Or.inl rfl
        · exact Or.inr ⟨e, List.mem_cons_of_mem _ he, rfl⟩

/-- C8: computeNextRun returns null exactly when the trigger list has no
cron-prefixed entry; otherwise it returns a value that is at most every
individual cron trigger next-fire instant and is itself one of those
instants. -/
theorem C8_computeNextRun_spec (nextFire : String → Nat) (triggers : List String) :
    (computeNextRun nextFire triggers = none ↔
      ∀ t ∈ triggers, strStartsWith t "cron:" = false) ∧
    ∀ v, computeNextRun nextFire triggers = some v →
      (∀ e ∈ parseCronTriggers triggers, v ≤ nextFire e) ∧
      ∃ e ∈ parseCronTriggers triggers, v = nextFire e := by
  have hchar : parseCronTriggers triggers = [] ↔
      ∀ t ∈ triggers, strStartsWith t "cron:" = false := by
    simp [parseCronTriggers]
  rcases hpe : parseCronTriggers triggers with _ | ⟨e, rest⟩
  · constructor
    · constructor
      · intro _
        exact hchar.mp hpe
      · intro _
        simp [computeNextRun, hpe]
    · intro v hv
      rw [computeNextRun] at hv
      simp [hpe] at hv
  · have hne : computeNextRun nextFire triggers =
        rest.foldl (earliestStep nextFire) (some (nextFire e)) := by
      have hstep : earliestStep nextFire none e = some (nextFire e) := by
        simp [earliestStep]
      simp [computeNextRun, hpe, List.foldl_cons, hstep]
    obtain ⟨m, hm, hle, hall, hor⟩ := earliestStep_foldl_some nextFire rest (nextFire e)
    constructor
    · constructor
      · intro h
        rw [hne, hm] at h
        exact absurd h (by simp)
      · intro hnone
        exfalso
        have hmem : e ∈ parseCronTriggers triggers := by
          rw [hpe]; exact List.mem_cons_self ..
        simp only [parseCronTriggers, List.mem_map, List.mem_filter] at hmem
        obtain ⟨t, ⟨ht, hstart⟩, _⟩ := hmem
        rw [hnone t ht] at hstart
        exact Bool.false_ne_true hstart
    · intro v hv
      rw [hne, hm] at hv
      obtain rfl : m = v := by simpa using hv
      constructor
      · intro e' he'
        rcases List.mem_cons.mp he' with rfl | he'
        · exact hle
        · exact hall e' he'
      · rcases hor with rfl | ⟨e', he', rfl⟩
        · exact ⟨e, List.mem_cons_self .., rfl⟩
        · exact ⟨e', List.mem_cons_of_mem _ he', rfl⟩

theorem C8_witness :
    (∀ e ∈ parseCronTriggers ["manual", "cron:30 8 * * *", "cron:0 9 * * 1-5"],
      30 ≤ (fun e => if e == "30 8 * * *" then 30 else 50) e) ∧
    ∃ e ∈ parseCronTriggers ["manual", "cron:30 8 * * *", "cron:0 9 * * 1-5"],
      30 = (fun e => if e == "30 8 * * *" then 30 else 50) e :=
  (C8_computeNextRun_spec (fun e => if e == "30 8 * * *" then 30 else 50)
    ["manual", "cron:30 8 * * *", "cron:0 9 * * 1-5"]).2 30 (by decide)

/-! ## C5: subprocess environment blocklist -/

theorem filterEnv_lookup_blocked (k : String) (hb : isBlockedEnvVar k = true) :
    ∀ p : List (String × Option String), (filterEnv p).lookup k = none := by
  intro p
  induction p with
  | nil => rfl
  | cons x xs ih =>
    obtain ⟨k1, v1⟩ := x
    match v1 with
    | none => simpa [filterEnv, List.filterMap_cons] using ih
    | some v =>
      by_cases h1 : isBlockedEnvVar k1 = true
      · simpa [filterEnv, List.filterMap_cons, h1] using ih
      · have hne : (k == k1) = false := by
          cases hk : k == k1 with
          | false => rfl
          | true =>
            exfalso
            have hkk : k = k1 := by simpa using hk
            rw [hkk] at hb
            exact h1 hb
        simpa [filterEnv, List.filterMap_cons, h1, List.lookup, hne] using ih

theorem spread_left_lookup_none (b : List (String × String)) (k : String) :
    ∀ a : List (String × String), a.lookup k = none →
      ((a.map fun kv =>
        match b.lookup kv.1 with
        | some v => (kv.1, v)
        | none => kv)).lookup k = none := by
  intro a
  induction a with
  | nil => intro _; rfl
  | cons x xs ih =>
    intro ha
    obtain ⟨k1, v1⟩ := x
    have hne : (k == k1) = false := by
      cases hk : k == k1 with
      | false => rfl
      | true => rw [List.lookup, hk] at ha; exact absurd ha (by simp)
    have htail : xs.lookup k = none := by
      rw [List.lookup, hne] at ha; exact ha
    cases hbl : b.lookup k1 with
    | none => simpa [List.lookup, hbl, hne] using ih htail
    | some v => simpa [List.lookup, hbl, hne] using ih htail

theorem lookup_filter_key (q : String → Bool) (k : String) (hq : q k = true) :
    ∀ b : List (String × String),
      (b.filter fun kv => q kv.1).lookup k = b.lookup k := by
  intro b
  induction b with
  | nil => rfl
  | cons x xs ih =>
    obtain ⟨k1, v1⟩ := x
    by_cases h1 : q k1 = true
    · cases hk : k == k1 with
      | true => simp [List.filter_cons, h1, List.lookup, hk]
      | false => simpa [List.filter_cons, h1, List.lookup, hk] using ih
    · have hne : (k == k1) = false := by
        cases hk : k == k1 with
        | false => rfl
        | true =>
          exfalso
          have hkk : k = k1 := by simpa using hk
          rw [hkk] at hq
          exact h1 hq
      simpa [List.filter_cons, h1, List.lookup, hne] using ih

/-- C5 counterexample: the claim states that no blocked variable appears in
any environment forwarded to a spawned tool adapter; but a per-server
configured env is spread over the filtered process env unfiltered, so a
blocked name configured there does appear in the child environment. -/
theorem C5_counterexample :
    isBlockedEnvVar "GITHUB_TOKEN" = true ∧
    (mcpChildEnv (some [("GITHUB_TOKEN", "tok")])
        [("HOME", some "/root"), ("ANTHROPIC_API_KEY", some "sk-abc")]).lookup
      "GITHUB_TOKEN" = some "tok" := by
  constructor
  · decide
  · decide

/-- C5 (amended): the blocklist is applied to the inherited process
environment only. No blocked variable of the process environment ever reaches
the child: filterEnv drops every blocked name, the child environment built
without a per-server env contains no blocked name at all, a blocked name in
the child environment can only carry a value the per-server configured env
itself supplies, and the filtered environment is invariant under adding any
binding of a blocked process variable (so the child environment can not
depend on blocked process variables). -/
theorem C5_blocklist_scope :
    (∀ (p : List (String × Option String)) (k : String), isBlockedEnvVar k = true →
      (filterEnv p).lookup k = none) ∧
    (∀ (p : List (String × Option String)) (k : String), isBlockedEnvVar k = true →
      (mcpChildEnv none p).lookup k = none) ∧
    (∀ (p : List (String × Option String)) (oe : List (String × String))
      (k v : String), isBlockedEnvVar k = true →
      (mcpChildEnv (some oe) p).lookup k = some v → oe.lookup k = some v) ∧
    (∀ (p : List (String × Option String)) (name : String) (val : Option String),
      isBlockedEnvVar name = true → filterEnv ((name, val) :: p) = filterEnv p) := by
  refine ⟨fun p k hb => filterEnv_lookup_blocked k hb p,
          fun p k hb => filterEnv_lookup_blocked k hb p, ?_, ?_⟩
  · intro p oe k v hb hchild
    have hsafe : (filterEnv p).lookup k = none := filterEnv_lookup_blocked k hb p
    have hleft := spread_left_lookup_none oe k (filterEnv p) hsafe
    rw [mcpChildEnv, spreadMerge, lookup_append_eq, hleft] at hchild
    have hq : ((filterEnv p).lookup k).isNone = true := by rw [hsafe]; rfl
    rw [lookup_filter_key (fun s => ((filterEnv p).lookup s).isNone) k hq oe] at hchild
    exact hchild
  · intro p name val hb
    match val with
    | none => simp [filterEnv, List.filterMap_cons]
    | some v => simp [filterEnv, List.filterMap_cons, hb]

theorem C5_witness :
    (filterEnv [("GITHUB_TOKEN", some "ghp-x"), ("HOME", some "/root"),
      ("MY_APP_SECRET", some "s")]).lookup "GITHUB_TOKEN" = none ∧
    (mcpChildEnv none [("GITHUB_TOKEN", some "ghp-x"), ("HOME", some "/root"),
      ("MY_APP_SECRET", some "s")]).lookup "MY_APP_SECRET" = none :=
  ⟨C5_blocklist_scope.1 _ "GITHUB_TOKEN" (by decide),
   C5_blocklist_scope.2.1 _ "MY_APP_SECRET" (by decide)⟩

/-! ## C10 and C6: registry replace and disconnectAll -/

/-- The registry entry the shell local server registration stores (used as the
concrete local, adapter-less server state in witnesses). -/
def localShellEntry : ServerEntry :=
  { client := none,
    tools := [("run_command",
      { name := "shell.run_command", serverName := "shell",
        originalName := "run_command",
        description := some "Run a shell command", source := "built-in" })],
    hasLocalHandlers := true, source := "built-in" }

/-- C10: replacing a server registered via registerLocalServer rejects with a
TypeError raised by dereferencing the null adapter, before any connection is
attempted (the conclusion holds for every connect outcome), and the registry
state is unchanged: the local entry stays registered with its tool set
intact. -/
theorem C10_replace_local_rejects (m : ServersMap) (name : String)
    (entry : ServerEntry) (connect : Except String (List McpToolSpec))
    (source : String) (hlook : m.lookup name = some entry)
    (hlocal : entry.client = none) :
    registerServer m name connect source true =
      (.error (.typeError TYPE_ERROR_NULL_DISCONNECT), m) ∧
    (registerServer m name connect source true).2.lookup name = some entry := by
  have h1 : registerServer m name connect source true =
      (.error (.typeError TYPE_ERROR_NULL_DISCONNECT), m) := by
    simp [registerServer, hlook, hlocal]
  exact ⟨h1, by rw [h1]; exact hlook⟩

theorem C10_witness :
    registerServer [("shell", localShellEntry)] "shell"
        (.ok [{ name := "exec", description := none }]) "agentd-tools" true =
      (.error (.typeError TYPE_ERROR_NULL_DISCONNECT), [("shell", localShellEntry)]) ∧
    (registerServer [("shell", localShellEntry)] "shell"
        (.ok [{ name := "exec", description := none }]) "agentd-tools" true).2.lookup
      "shell" = some localShellEntry :=
  C10_replace_local_rejects [("shell", localShellEntry)] "shell" localShellEntry
    (.ok [{ name := "exec", description := none }]) "agentd-tools"
    (by decide) (by decide)

theorem mapClientDisconnects_allSome (disc : Nat → Except JsError Unit) :
    ∀ (l : List ServerEntry) (i : Nat), (∀ e ∈ l, e.client.isSome = true) →
      ∃ ps, mapClientDisconnects disc l i = .ok ps := by
  intro l
  induction l with
  | nil => exact fun i _ => ⟨[], rfl⟩
  | cons x xs ih =>
    intro i hall
    have hx : x.client.isSome = true := hall x (List.mem_cons_self ..)
    obtain ⟨u, hu⟩ := Option.isSome_iff_exists.mp hx
    obtain ⟨ps, hps⟩ := ih (i + 1) (fun e he => hall e (List.mem_cons_of_mem _ he))
    exact ⟨disc i :: ps, by simp [mapClientDisconnects, hu, hps]⟩

/-- C6: the disconnectAll of the TypeScript source never raises on a registry
whose entries all have adapters, whatever the individual disconnect outcomes
(they are absorbed by Promise.allSettled), and the disconnectAll of the
shipped build never raises on ANY registry state; but the TypeScript source
dereferences the null client of a local in-process server, so a registry
containing one makes it reject with a TypeError after clearing the map —
the failing input of this code bug. -/
theorem C6_disconnectAll_null_client (disc : Nat → Except JsError Unit) :
    (∀ m : ServersMap, (∀ p ∈ m, p.2.client.isSome = true) →
      disconnectAllSrc m disc = (.ok (), [])) ∧
    (∀ m : ServersMap, disconnectAllDist m disc = (.ok (), [])) ∧
    disconnectAllSrc [("shell", localShellEntry)] disc =
      (.error (.typeError TYPE_ERROR_NULL_DISCONNECT), []) := by
  refine ⟨?_, fun m => rfl, ?_⟩
  · intro m hall
    have hall2 : ∀ e ∈ m.map (·.2), e.client.isSome = true := by
      intro e he
      obtain ⟨p, hp, rfl⟩ := List.mem_map.mp he
      exact hall p hp
    obtain ⟨ps, hps⟩ := mapClientDisconnects_allSome disc (m.map (·.2)) 0 hall2
    simp [disconnectAllSrc, hps]
  · simp [disconnectAllSrc, localShellEntry, mapClientDisconnects]

theorem C6_witness :
    disconnectAllSrc
      [("filesystem", { client := some (), tools := [], hasLocalHandlers := false,
                        source := "built-in" })]
      (fun _ => .error (.jsErr "disconnect timed out")) = (.ok (), []) :=
  (C6_disconnectAll_null_client (fun _ => .error (.jsErr "disconnect timed out"))).1
    _ (by decide)

/-! ## C7: getRun lookup -/

theorem likeMatchChars_of_prefix :
    ∀ (qc s : List Char), (∀ c ∈ qc, c ≠ '%' ∧ c ≠ '_') →
      qc.isPrefixOf s = true → likeMatchChars (qc ++ ['%']) s = true := by
  intro qc
  induction qc with
  | nil =>
    intro s _ _
    have hmem : ([] : List Char) ∈ s.tails := (List.mem_tails _ _).mpr List.nil_suffix
    simp only [List.nil_append, likeMatchChars, if_pos rfl]
    exact List.any_eq_true.mpr ⟨[], hmem, by simp [likeMatchChars]⟩
  | cons a qc' ih =>
    intro s hwf hpre
    have ha := hwf a (List.mem_cons_self ..)
    match s with
    | [] => simp [List.isPrefixOf] at hpre
    | c :: ss =>
      rw [List.isPrefixOf, Bool.and_eq_true] at hpre
      obtain ⟨hac, hpre'⟩ := hpre
      have hac' : a = c := by simpa using hac
      have hrest := ih ss (fun x hx => hwf x (List.mem_cons_of_mem _ hx)) hpre'
      subst hac'
      simp [likeMatchChars, ha.1, ha.2, hrest]

theorem find?_eq_some_of_nodup (q : String) :
    ∀ (runs : List RunRow) (r : RunRow), (runs.map (·.id)).Nodup → r ∈ runs →
      r.id = q → runs.find? (fun s => s.id == q) = some r := by
  intro runs
  induction runs with
  | nil => intro r _ hmem; cases hmem
  | cons x xs ih =>
    intro r hnd hmem hid
    rw [List.map_cons, List.nodup_cons] at hnd
    obtain ⟨hnotin, hnd2⟩ := hnd
    rcases List.mem_cons.mp hmem with rfl | hmem'
    · simp [List.find?_cons, hid]
    · have hxne : (x.id == q) = false := by
        cases hk : x.id == q with
        | false => rfl
        | true =>
          exfalso
          have hx : x.id = q := by simpa using hk
          apply hnotin
          rw [hx, ← hid]
          exact List.mem_map_of_mem _ hmem'
      rw [List.find?_cons, hxne]
      exact ih r hnd2 hmem' hid

/-- C7: getRun tries an exact-id match first and returns the row with its
event list; with no exact match and exactly one LIKE-prefix match it returns
the same record, with its event list, that the full id returns; with no match
it returns the not-found result; with two or more matching rows it fails with
the distinct ambiguity error; and a genuine id prefix (one without LIKE
metacharacters) always LIKE-matches, so unique genuine prefixes fall under the
unique-match case. -/
theorem C7_getRun_spec (runs : List RunRow) (events : List EventRow) (q : String) :
    ((runs.map (·.id)).Nodup → ∀ r ∈ runs, r.id = q →
      getRun runs events q =
        .ok (some { run := r, events := fetchRunEvents events r.id })) ∧
    ((runs.map (·.id)).Nodup → (∀ s ∈ runs, s.id ≠ q) →
      ∀ r, (runs.filter fun s => likeMatch q s.id) = [r] →
        getRun runs events q = getRun runs events r.id ∧
        getRun runs events q =
          .ok (some { run := r, events := fetchRunEvents events r.id })) ∧
    ((∀ s ∈ runs, s.id ≠ q) → (runs.filter fun s => likeMatch q s.id) = [] →
      getRun runs events q = .ok none) ∧
    ((∀ s ∈ runs, s.id ≠ q) →
      ∀ r₁ r₂, r₁ ∈ runs → r₂ ∈ runs → r₁ ≠ r₂ →
        likeMatch q r₁.id = true → likeMatch q r₂.id = true →
        getRun runs events q = .error "Ambiguous run ID prefix, be more specific") ∧
    (∀ (qc : List Char) (s : String), (∀ c ∈ qc, c ≠ '%' ∧ c ≠ '_') →
      qc.isPrefixOf s.toList = true → likeMatch (String.mk qc) s = true) := by
  refine ⟨?_, ?_, ?_, ?_, ?_⟩
  · intro hnd r hmem hid
    have hfind := find?_eq_some_of_nodup q runs r hnd hmem hid
    simp [getRun, hfind]
  · intro hnd hne r hfilter
    have hnone : runs.find? (fun s => s.id == q) = none := by
      rw [List.find?_eq_none]
      intro x hx
      simp [hne x hx]
    have hrmem : r ∈ runs := by
      have : r ∈ runs.filter fun s => likeMatch q s.id := by
        rw [hfilter]; exact List.mem_cons_self ..
      exact (List.mem_filter.mp this).1
    have hq : getRun runs events q =
        .ok (some { run := r, events := fetchRunEvents events r.id }) := by
      simp [getRun, hnone, hfilter]
    have hfull := find?_eq_some_of_nodup r.id runs r hnd hrmem rfl
    have hfid : getRun runs events r.id =
        .ok (some { run := r, events := fetchRunEvents events r.id }) := by
      simp [getRun, hfull]
    exact ⟨by rw [hq, hfid], hq⟩
  · intro hne hfilter
    have hnone : runs.find? (fun s => s.id == q) = none := by
      rw [List.find?_eq_none]
      intro x hx
      simp [hne x hx]
    simp [getRun, hnone, hfilter]
  · intro hne r₁ r₂ h₁ h₂ hdiff hl₁ hl₂
    have hnone : runs.find? (fun s => s.id == q) = none := by
      rw [List.find?_eq_none]
      intro x hx
      simp [hne x hx]
    have hm₁ : r₁ ∈ runs.filter fun s => likeMatch q s.id :=
      List.mem_filter.mpr ⟨h₁, hl₁⟩
    have hm₂ : r₂ ∈ runs.filter fun s => likeMatch q s.id :=
      List.mem_filter.mpr ⟨h₂, hl₂⟩
    match hf : runs.filter fun s => likeMatch q s.id with
    | [] =>
      rw [hf] at hm₁
      cases hm₁
    | [x] =>
      rw [hf] at hm₁ hm₂
      exfalso
      apply hdiff
      have e₁ : r₁ = x := by simpa using hm₁
      have e₂ : r₂ = x := by simpa using hm₂
      rw [e₁, e₂]
    | x :: y :: rest => simp [getRun, hnone, hf]
  · intro qc s hwf hpre
    exact likeMatchChars_of_prefix qc s.toList hwf hpre

/-- Fixed rows for the C7 witness. -/
def c7RunA : RunRow := { id := "abc123", agentName := "agentA", status := "completed" }

def c7RunB : RunRow := { id := "xyz789", agentName := "agentB", status := "error" }

def c7Events : List EventRow :=
  [{ id := 2, runId := "abc123", etype := "llm_call", payload := none },
   { id := 1, runId := "abc123", etype := "tool_call", payload := some "d" },
   { id := 3, runId := "xyz789", etype := "error", payload := none }]

theorem C7_witness :
    getRun [c7RunA, c7RunB] c7Events "ab" = getRun [c7RunA, c7RunB] c7Events "abc123" ∧
    getRun [c7RunA, c7RunB] c7Events "ab" =
      .ok (some { run := c7RunA, events := fetchRunEvents c7Events c7RunA.id }) :=
  (C7_getRun_spec [c7RunA, c7RunB] c7Events "ab").2.1 (by decide) (by decide)
    c7RunA (by decide)

/-! ## C2: retry policy -/

theorem llmCallWithRetries_firstSuccess (oracle : Nat → ApiOutcome)
    (errs : Nat → ApiError) (r : AnthropicResponse) :
    ∀ (k attempt fuel : Nat), k ≤ fuel →
      (∀ a, a < k → oracle (attempt + a) = .err (errs (attempt + a)) ∧
        (transientRetryMs (errs (attempt + a))).isSome = true) →
      oracle (attempt + k) = .ok r →
      llmCallWithRetries oracle attempt fuel =
        (.ok r, (List.range k).map fun a =>
          .retry (attempt + a + 1) MAX_RETRIES
            ((transientRetryMs (errs (attempt + a))).getD 0)) := by
  intro k
  induction k with
  | zero =>
    intro attempt fuel _ _ hok
    rw [Nat.add_zero] at hok
    simp [llmCallWithRetries, hok]
  | succ k ih =>
    intro attempt fuel hkf herrs hok
    obtain ⟨fuel', rfl⟩ : ∃ f, fuel = f + 1 := ⟨fuel - 1, by omega⟩
    have h0 := herrs 0 (by omega)
    rw [Nat.add_zero] at h0
    obtain ⟨he, hsome⟩ := h0
    obtain ⟨d, hd⟩ := Option.isSome_iff_exists.mp hsome
    have ihres := ih (attempt + 1) fuel' (by omega)
      (fun a ha => by
        have h := herrs (a + 1) (by omega)
        rwa [show attempt + (a + 1) = attempt + 1 + a by omega] at h)
      (by rwa [show attempt + (k + 1) = attempt + 1 + k by omega] at hok)
    have hstep : llmCallWithRetries oracle attempt (fuel' + 1) =
        ((llmCallWithRetries oracle (attempt + 1) fuel').1,
         .retry (attempt + 1) MAX_RETRIES d ::
           (llmCallWithRetries oracle (attempt + 1) fuel').2) := by
      rw [llmCallWithRetries, he]
      simp [hd]
    rw [hstep, ihres]
    simp only [Prod.mk.injEq]
    refine ⟨trivial, ?_⟩
    rw [List.range_succ_eq_map, List.map_cons, List.map_map]
    congr 1
    · simp [hd]
    · apply List.map_congr_left
      intro a _
      have h1 : attempt + 1 + a = attempt + (a + 1) := by omega
      simp only [Function.comp_apply, h1]

theorem llmCallWithRetries_exhausted (oracle : Nat → ApiOutcome)
    (errs : Nat → ApiError) :
    ∀ (fuel attempt : Nat),
      (∀ a, a ≤ fuel → oracle (attempt + a) = .err (errs (attempt + a)) ∧
        (transientRetryMs (errs (attempt + a))).isSome = true) →
      llmCallWithRetries oracle attempt fuel =
        (.error (errs (attempt + fuel)), (List.range fuel).map fun a =>
          .retry (attempt + a + 1) MAX_RETRIES
            ((transientRetryMs (errs (attempt + a))).getD 0)) := by
  intro fuel
  induction fuel with
  | zero =>
    intro attempt h
    obtain ⟨he, hsome⟩ := h 0 (by omega)
    rw [Nat.add_zero] at he hsome
    obtain ⟨d, hd⟩ := Option.isSome_iff_exists.mp hsome
    rw [Nat.add_zero, llmCallWithRetries, he]
    simp [hd]
  | succ fuel ih =>
    intro attempt h
    obtain ⟨he, hsome⟩ := h 0 (by omega)
    rw [Nat.add_zero] at he hsome
    obtain ⟨d, hd⟩ := Option.isSome_iff_exists.mp hsome
    have ihres := ih (attempt + 1)
      (fun a ha => by
        have hh := h (a + 1) (by omega)
        rwa [show attempt + (a + 1) = attempt + 1 + a by omega] at hh)
    have hstep : llmCallWithRetries oracle attempt (fuel + 1) =
        ((llmCallWithRetries oracle (attempt + 1) fuel).1,
         .retry (attempt + 1) MAX_RETRIES d ::
           (llmCallWithRetries oracle (attempt + 1) fuel).2) := by
      rw [llmCallWithRetries, he]
      simp [hd]
    rw [hstep, ihres]
    simp only [Prod.mk.injEq]
    constructor
    · rw [show attempt + 1 + fuel = attempt + (fuel + 1) by omega]
    · rw [List.range_succ_eq_map, List.map_cons, List.map_map]
      congr 1
      · simp [hd]
      · apply List.map_congr_left
        intro a _
        have h1 : attempt + 1 + a = attempt + (a + 1) := by omega
        simp only [Function.comp_apply, h1]

theorem processOllamaToolCalls_no_retry (toolO : Nat → ToolOutcome) :
    ∀ (tcs : List OllamaToolCall) (j : Nat),
      ((processOllamaToolCalls toolO tcs j).2.1).countP Event.isRetry = 0 := by
  intro tcs
  induction tcs with
  | nil => intro _; rfl
  | cons tc rest ih =>
    intro j
    have hev : Event.isRetry
        (mkToolCallEvent (toolO j) (fromOllamaToolName tc.fnName)) = false := by
      cases h : toolO j <;> simp [mkToolCallEvent, Event.isRetry]
    simp [processOllamaToolCalls, List.countP_cons, hev, ih (j + 1)]

theorem ollamaIter_no_retry (env : OllamaEnv) (model : String) :
    ∀ (fuel i : Nat) (st : OllamaState),
      (ollamaIterEvents (ollamaIter env model i fuel st)).countP Event.isRetry =
        st.events.countP Event.isRetry := by
  intro fuel
  induction fuel with
  | zero => intro i st; rfl
  | succ fuel ih =>
    intro i st
    cases hf : ollamaFetchResult (env.fetch i) with
    | error m => simp [ollamaIter, hf, ollamaIterEvents]
    | ok resp =>
      cases hc : resp.choices with
      | nil => simp [ollamaIter, hf, hc, ollamaIterEvents]
      | cons choice rest =>
        cases htc : choice.message.toolCalls with
        | nil =>
          simp [ollamaIter, hf, hc, htc, ollamaIterEvents, List.countP_append,
            List.countP_cons, Event.isRetry]
        | cons tc tcs =>
          simp only [ollamaIter, hf, hc, htc]
          rw [ih]
          simp [List.countP_append, List.countP_cons, Event.isRetry,
            processOllamaToolCalls_no_retry]

theorem runOllamaLoop_no_retry (env : OllamaEnv)
    (model systemPrompt initialMessage : String) :
    (ollamaLoopEvents (runOllamaLoop env model systemPrompt initialMessage)).countP
      Event.isRetry = 0 := by
  have h := ollamaIter_no_retry env model MAX_ITERATIONS 0
    { messages := [.system systemPrompt, .user initialMessage],
      totalToolCalls := 0, totalInputTokens := 0, totalOutputTokens := 0,
      output := "", events := [] }
  cases hit : ollamaIter env model 0 MAX_ITERATIONS
      { messages := [.system systemPrompt, .user initialMessage],
        totalToolCalls := 0, totalInputTokens := 0, totalOutputTokens := 0,
        output := "", events := [] } with
  | error e =>
    obtain ⟨m, st⟩ := e
    rw [hit] at h
    simp only [runOllamaLoop, hit]
    simpa [ollamaLoopEvents, ollamaIterEvents] using h
  | ok st =>
    rw [hit] at h
    simp only [runOllamaLoop, hit]
    simpa [ollamaLoopEvents, ollamaIterEvents] using h

/-- The environment of the C2 counterexample: the first chat completion fetch
answers HTTP 429 and every later one would succeed. -/
def ollamaEnv429 : OllamaEnv :=
  { fetch := fun i =>
      if i == 0 then .httpError 429 "rate limited"
      else .ok { choices := [{ message := { content := some "done", toolCalls := [] },
                               finishReason := "stop" }],
                 usage := none },
    tool := fun _ _ => .ok "[]" false }

/-- C2 counterexample: the claim says both provider variants retry a 429 up to
three times with retry events; but the Ollama loop throws the HTTP 429 error
at once — the run fails on the very first iteration with zero retry events
even though the next fetch outcome would have succeeded. -/
theorem C2_counterexample :
    ollamaLoopFailed (runOllamaLoop ollamaEnv429 "llama3.3:70b" "prompt" "Go.") = true ∧
    (ollamaLoopEvents (runOllamaLoop ollamaEnv429 "llama3.3:70b" "prompt" "Go.")).countP
      Event.isRetry = 0 ∧
    runOllamaLoop ollamaEnv429 "llama3.3:70b" "prompt" "Go." =
      .error ("Ollama returned HTTP 429: rate limited",
        { messages := [.system "prompt", .user "Go."], totalToolCalls := 0,
          totalInputTokens := 0, totalOutputTokens := 0, output := "", events := [] }) ∧
    (∃ resp, ollamaEnv429.fetch 1 = .ok resp) :=
  ⟨rfl, rfl, rfl, ⟨_, rfl⟩⟩

/-- C2 (amended): only the Anthropic loop retries. Its transient classes are
exactly status 429 (delay from the retry-after hint scaled to milliseconds,
60 s default) and statuses 500, 502, 503 and 529 (fixed 5 s); a first success
at attempt k within the budget of MAX_RETRIES = 3 retries yields the response
with exactly k retry events; exhausting the budget re-raises the last
attempt error after 3 retry events; a non-transient error (including 5xx
statuses outside the listed set, such as 504) is re-raised at once with no
retry event. The Ollama loop performs no retries at all: no run of it, on any
environment, ever records a retry event. -/
theorem C2_retry_policy :
    (∀ (oracle : Nat → ApiOutcome) (errs : Nat → ApiError) (r : AnthropicResponse)
      (k : Nat), k ≤ MAX_RETRIES →
      (∀ a, a < k → oracle a = .err (errs a) ∧
        (transientRetryMs (errs a)).isSome = true) →
      oracle k = .ok r →
      llmCallWithRetries oracle 0 MAX_RETRIES =
        (.ok r, (List.range k).map fun a =>
          .retry (a + 1) MAX_RETRIES ((transientRetryMs (errs a)).getD 0))) ∧
    (∀ (oracle : Nat → ApiOutcome) (errs : Nat → ApiError),
      (∀ a, a ≤ MAX_RETRIES → oracle a = .err (errs a) ∧
        (transientRetryMs (errs a)).isSome = true) →
      llmCallWithRetries oracle 0 MAX_RETRIES =
        (.error (errs MAX_RETRIES), (List.range MAX_RETRIES).map fun a =>
          .retry (a + 1) MAX_RETRIES ((transientRetryMs (errs a)).getD 0))) ∧
    (∀ (oracle : Nat → ApiOutcome) (e : ApiError), transientRetryMs e = none →
      oracle 0 = .err e →
      llmCallWithRetries oracle 0 MAX_RETRIES = (.error e, [])) ∧
    (transientRetryMs { status := some 429, retryAfterSecs := some 2, message := "" } =
        some 2000 ∧
     transientRetryMs { status := some 429, retryAfterSecs := none, message := "" } =
        some DEFAULT_RETRY_DELAY_MS ∧
     transientRetryMs { status := some 503, retryAfterSecs := none, message := "" } =
        some 5000 ∧
     transientRetryMs { status := some 529, retryAfterSecs := none, message := "" } =
        some 5000 ∧
     transientRetryMs { status := some 504, retryAfterSecs := none, message := "" } =
        none ∧
     transientRetryMs { status := some 401, retryAfterSecs := none, message := "" } =
        none) ∧
    (∀ (env : OllamaEnv) (model systemPrompt initialMessage : String),
      (ollamaLoopEvents (runOllamaLoop env model systemPrompt initialMessage)).countP
        Event.isRetry = 0) := by
  refine ⟨?_, ?_, ?_, by decide, runOllamaLoop_no_retry⟩
  · intro oracle errs r k hk herr hok
    have h := llmCallWithRetries_firstSuccess oracle errs r k 0 MAX_RETRIES hk
      (fun a ha => by simpa using herr a ha) (by simpa using hok)
    simpa using h
  · intro oracle errs herr
    have h := llmCallWithRetries_exhausted oracle errs MAX_RETRIES 0
      (fun a ha => by simpa using herr a ha)
    simpa using h
  · intro oracle e hnt h0
    rw [llmCallWithRetries, h0]
    simp [hnt]

/-- The Anthropic call oracle of the C2 witness: two transient 429 errors,
then a success on the third attempt. -/
def c2Oracle : Nat → ApiOutcome := fun a =>
  if a < 2 then
    .err { status := some 429, retryAfterSecs := some 2, message := "rate limited" }
  else
    .ok { stopReason := .endTurn, content := [.text "hi"],
          usage := { inputTokens := 1, outputTokens := 2 } }

def c2Errs : Nat → ApiError := fun _ =>
  { status := some 429, retryAfterSecs := some 2, message := "rate limited" }

theorem C2_witness :
    llmCallWithRetries c2Oracle 0 MAX_RETRIES =
      (.ok { stopReason := .endTurn, content := [.text "hi"],
             usage := { inputTokens := 1, outputTokens := 2 } },
       (List.range 2).map fun a =>
         .retry (a + 1) MAX_RETRIES ((transientRetryMs (c2Errs a)).getD 0)) :=
  C2_retry_policy.1 c2Oracle c2Errs _ 2 (by decide) (by decide) (by decide)

/-! ## C3: tool execution failures never abort the loop -/

/-- Whether a content block is a tool_use block. -/
def ContentBlock.isToolUse : ContentBlock → Bool
  | .toolUse _ _ _ => true
  | _ => false

/-- The tool_use blocks of a response content, as (id, name, input) triples. -/
def toolUseBlocksOf (content : List ContentBlock) : List (String × String × String) :=
  content.filterMap fun b =>
    match b with
    | .toolUse id name input => some (id, name, input)
    | _ => none

theorem processToolUses_count (toolO : Nat → ToolOutcome) :
    ∀ (blocks : List ContentBlock) (j : Nat),
      (processToolUses toolO blocks j).2.2 = blocks.countP ContentBlock.isToolUse := by
  intro blocks
  induction blocks with
  | nil => intro _; rfl
  | cons b rest ih =>
    intro j
    cases b with
    | text t =>
      simp [processToolUses, List.countP_cons, ContentBlock.isToolUse, ih j]
    | toolUse id name input =>
      simp [processToolUses, List.countP_cons, ContentBlock.isToolUse, ih (j + 1)]

theorem processToolUses_threw (toolO : Nat → ToolOutcome) :
    ∀ (blocks : List ContentBlock) (j k : Nat) (id name input msg : String),
      (toolUseBlocksOf blocks).get? k = some (id, name, input) →
      toolO (j + k) = .threw msg →
      (processToolUses toolO blocks j).2.1.get? k =
        some (.toolCall (fromAnthropicName name) true) ∧
      (processToolUses toolO blocks j).1.get? k =
        some { toolUseId := id, isError := true, content := msg } := by
  intro blocks
  induction blocks with
  | nil => intro j k id name input msg hget; simp [toolUseBlocksOf] at hget
  | cons b rest ih =>
    intro j k id name input msg hget hthrew
    cases b with
    | text t =>
      have hget' : (toolUseBlocksOf rest).get? k = some (id, name, input) := by
        simpa [toolUseBlocksOf, List.filterMap_cons] using hget
      have := ih j k id name input msg hget' hthrew
      simpa [processToolUses] using this
    | toolUse id0 name0 input0 =>
      match k with
      | 0 =>
        have hids : id0 = id ∧ name0 = name ∧ input0 = input := by
          simpa [toolUseBlocksOf, List.filterMap_cons] using hget
        obtain ⟨rfl, rfl, rfl⟩ := hids
        rw [Nat.add_zero] at hthrew
        constructor
        · simp [processToolUses, mkToolCallEvent, hthrew]
        · simp [processToolUses, mkToolResultBlock, hthrew]
      | k' + 1 =>
        have hget' : (toolUseBlocksOf rest).get? k' = some (id, name, input) := by
          simpa [toolUseBlocksOf, List.filterMap_cons] using hget
        have hthrew' : toolO (j + 1 + k') = .threw msg := by
          rwa [show j + 1 + k' = j + (k' + 1) by omega]
        have := ih (j + 1) k' id name input msg hget' hthrew'
        simpa [processToolUses] using this

theorem anthropicIter_ok_of_llm_ok (env : AnthropicEnv) (model : String)
    (hllm : ∀ j, ∃ r, env.llm j 0 = .ok r) :
    ∀ (fuel i : Nat) (st : AnthropicState),
      ∃ st', anthropicIter env model i fuel st = .ok st' := by
  intro fuel
  induction fuel with
  | zero => intro i st; exact ⟨st, rfl⟩
  | succ fuel ih =>
    intro i st
    obtain ⟨r, hr⟩ := hllm i
    have hcall : llmCallWithRetries (env.llm i) 0 MAX_RETRIES = (.ok r, []) := by
      rw [llmCallWithRetries, hr]
    cases hsr : r.stopReason with
    | endTurn =>
      simp only [anthropicIter, hcall, hsr]
      exact ⟨_, rfl⟩
    | maxTokens =>
      simp only [anthropicIter, hcall, hsr]
      exact ⟨_, rfl⟩
    | toolUse =>
      simp only [anthropicIter, hcall, hsr]
      exact ih (i + 1) _
    | other s =>
      simp only [anthropicIter, hcall, hsr]
      exact ih (i + 1) _

theorem runAnthropicLoop_ok_of_llm_ok (env : AnthropicEnv) (model : String)
    (context : Option String) (hllm : ∀ j, ∃ r, env.llm j 0 = .ok r) :
    ∃ res st, runAnthropicLoop env model context = .ok (res, st) := by
  obtain ⟨st', hst'⟩ := anthropicIter_ok_of_llm_ok env model hllm MAX_ITERATIONS 0
    { messages := [.user (context.getD "Go.")], totalToolCalls := 0,
      totalInputTokens := 0, totalOutputTokens := 0, output := "", events := [] }
  simp only [runAnthropicLoop, hst']
  exact ⟨_, _, rfl⟩

theorem processOllamaToolCalls_count (toolO : Nat → ToolOutcome) :
    ∀ (tcs : List OllamaToolCall) (j : Nat),
      (processOllamaToolCalls toolO tcs j).2.2 = tcs.length := by
  intro tcs
  induction tcs with
  | nil => intro _; rfl
  | cons tc rest ih =>
    intro j
    simp [processOllamaToolCalls, ih (j + 1)]

theorem processOllamaToolCalls_threw (toolO : Nat → ToolOutcome) :
    ∀ (tcs : List OllamaToolCall) (j k : Nat) (tc : OllamaToolCall) (msg : String),
      tcs.get? k = some tc → toolO (j + k) = .threw msg →
      (processOllamaToolCalls toolO tcs j).2.1.get? k =
        some (.toolCall (fromOllamaToolName tc.fnName) true) ∧
      (processOllamaToolCalls toolO tcs j).1.get? k =
        some (.tool tc.id (.errorObj msg)) := by
  intro tcs
  induction tcs with
  | nil => intro j k tc msg hget; simp at hget
  | cons tc0 rest ih =>
    intro j k tc msg hget hthrew
    match k with
    | 0 =>
      obtain rfl : tc0 = tc := by simpa using hget
      rw [Nat.add_zero] at hthrew
      constructor
      · simp [processOllamaToolCalls, mkToolCallEvent, hthrew]
      · simp [processOllamaToolCalls, mkOllamaToolMessage, hthrew]
    | k' + 1 =>
      have hget' : rest.get? k' = some tc := by simpa using hget
      have hthrew' : toolO (j + 1 + k') = .threw msg := by
        rwa [show j + 1 + k' = j + (k' + 1) by omega]
      have := ih (j + 1) k' tc msg hget' hthrew'
      simpa [processOllamaToolCalls] using this

theorem ollamaIter_ok_of_fetch_ok (env : OllamaEnv) (model : String)
    (hfetch : ∀ j, ∃ resp choice rest, env.fetch j = .ok resp ∧
      resp.choices = choice :: rest) :
    ∀ (fuel i : Nat) (st : OllamaState),
      ∃ st', ollamaIter env model i fuel st = .ok st' := by
  intro fuel
  induction fuel with
  | zero => intro i st; exact ⟨st, rfl⟩
  | succ fuel ih =>
    intro i st
    obtain ⟨resp, choice, rest, hf, hc⟩ := hfetch i
    have hfr : ollamaFetchResult (env.fetch i) = .ok resp := by rw [hf]; rfl
    cases htc : choice.message.toolCalls with
    | nil =>
      simp only [ollamaIter, hfr, hc, htc]
      exact ⟨_, rfl⟩
    | cons tc tcs =>
      simp only [ollamaIter, hfr, hc, htc]
      exact ih (i + 1) _

theorem runOllamaLoop_ok_of_fetch_ok (env : OllamaEnv)
    (model systemPrompt initialMessage : String)
    (hfetch : ∀ j, ∃ resp choice rest, env.fetch j = .ok resp ∧
      resp.choices = choice :: rest) :
    ∃ res st, runOllamaLoop env model systemPrompt initialMessage = .ok (res, st) := by
  obtain ⟨st', hst'⟩ := ollamaIter_ok_of_fetch_ok env model hfetch MAX_ITERATIONS 0
    { messages := [.system systemPrompt, .user initialMessage],
      totalToolCalls := 0, totalInputTokens := 0, totalOutputTokens := 0,
      output := "", events := [] }
  simp only [runOllamaLoop, hst']
  exact ⟨_, _, rfl⟩

/-- C3: in both provider loops a thrown tool call never aborts the run. Every
tool_use block (Anthropic) and every tool call (Ollama) increments the
tool-call counter, throwing included; a throwing call yields an error-flagged
tool_call event and an error-flagged tool result appended to the conversation
(an is_error tool_result block for Anthropic, an error-object tool message for
Ollama); and whenever every LLM call of the environment succeeds, the loop
runs to a successful result no matter what the tool oracle does — tool
outcomes alone can never produce the error exit. -/
theorem C3_tool_failures_never_abort :
    (∀ (toolO : Nat → ToolOutcome) (blocks : List ContentBlock) (j : Nat),
      (processToolUses toolO blocks j).2.2 = blocks.countP ContentBlock.isToolUse) ∧
    (∀ (toolO : Nat → ToolOutcome) (blocks : List ContentBlock) (j k : Nat)
      (id name input msg : String),
      (toolUseBlocksOf blocks).get? k = some (id, name, input) →
      toolO (j + k) = .threw msg →
      (processToolUses toolO blocks j).2.1.get? k =
        some (.toolCall (fromAnthropicName name) true) ∧
      (processToolUses toolO blocks j).1.get? k =
        some { toolUseId := id, isError := true, content := msg }) ∧
    (∀ (env : AnthropicEnv) (model : String) (context : Option String),
      (∀ j, ∃ r, env.llm j 0 = .ok r) →
      ∃ res st, runAnthropicLoop env model context = .ok (res, st)) ∧
    (∀ (toolO : Nat → ToolOutcome) (tcs : List OllamaToolCall) (j : Nat),
      (processOllamaToolCalls toolO tcs j).2.2 = tcs.length) ∧
    (∀ (toolO : Nat → ToolOutcome) (tcs : List OllamaToolCall) (j k : Nat)
      (tc : OllamaToolCall) (msg : String),
      tcs.get? k = some tc → toolO (j + k) = .threw msg →
      (processOllamaToolCalls toolO tcs j).2.1.get? k =
        some (.toolCall (fromOllamaToolName tc.fnName) true) ∧
      (processOllamaToolCalls toolO tcs j).1.get? k =
        some (.tool tc.id (.errorObj msg))) ∧
    (∀ (env : OllamaEnv) (model systemPrompt initialMessage : String),
      (∀ j, ∃ resp choice rest, env.fetch j = .ok resp ∧
        resp.choices = choice :: rest) →
      ∃ res st, runOllamaLoop env model systemPrompt initialMessage = .ok (res, st)) :=
  ⟨processToolUses_count, processToolUses_threw,
   fun env model context h => runAnthropicLoop_ok_of_llm_ok env model context h,
   processOllamaToolCalls_count, processOllamaToolCalls_threw,
   fun env model s ini h => runOllamaLoop_ok_of_fetch_ok env model s ini h⟩

/-- The Anthropic environment of the C3 witness: the model keeps requesting
one tool call per turn, and every tool call throws. -/
def c3Env : AnthropicEnv :=
  { llm := fun _ _ =>
      .ok { stopReason := .toolUse,
            content := [.text "calling", .toolUse "tu1" "fs__read" "args"],
            usage := { inputTokens := 3, outputTokens := 4 } },
    tool := fun _ _ => .threw "boom" }

theorem C3_witness :
    ((processToolUses (fun _ => .threw "boom")
        [.text "calling", .toolUse "tu1" "fs__read" "args"] 0).2.1.get? 0 =
      some (.toolCall (fromAnthropicName "fs__read") true) ∧
     (processToolUses (fun _ => .threw "boom")
        [.text "calling", .toolUse "tu1" "fs__read" "args"] 0).1.get? 0 =
      some { toolUseId := "tu1", isError := true, content := "boom" }) ∧
    ∃ res st, runAnthropicLoop c3Env "claude-sonnet-4-20250514" none = .ok (res, st) :=
  ⟨C3_tool_failures_never_abort.2.1 (fun _ => .threw "boom")
      [.text "calling", .toolUse "tu1" "fs__read" "args"] 0 0 "tu1" "fs__read"
      "args" "boom" (by decide) (by decide),
   C3_tool_failures_never_abort.2.2.1 c3Env "claude-sonnet-4-20250514" none
      (fun j => ⟨_, rfl⟩)⟩

/-! ## C4: iteration ceiling is a successful completion -/

theorem anthropicIter_toolUse_preserves_output (env : AnthropicEnv) (model : String)
    (hllm : ∀ j, ∃ r, env.llm j 0 = .ok r ∧ r.stopReason = .toolUse) :
    ∀ (fuel i : Nat) (st : AnthropicState),
      ∃ st', anthropicIter env model i fuel st = .ok st' ∧ st'.output = st.output := by
  intro fuel
  induction fuel with
  | zero => intro i st; exact ⟨st, rfl, rfl⟩
  | succ fuel ih =>
    intro i st
    obtain ⟨r, hr, hsr⟩ := hllm i
    have hcall : llmCallWithRetries (env.llm i) 0 MAX_RETRIES = (.ok r, []) := by
      rw [llmCallWithRetries, hr]
    simp only [anthropicIter, hcall, hsr]
    exact ih (i + 1) _

theorem runAnthropicLoop_ceiling (env : AnthropicEnv) (model : String)
    (context : Option String)
    (hllm : ∀ j, ∃ r, env.llm j 0 = .ok r ∧ r.stopReason = .toolUse) :
    ∃ res st, runAnthropicLoop env model context = .ok (res, st) ∧
      res.output = ITERATION_SENTINEL := by
  obtain ⟨st', hst', hout⟩ := anthropicIter_toolUse_preserves_output env model hllm
    MAX_ITERATIONS 0
    { messages := [.user (context.getD "Go.")], totalToolCalls := 0,
      totalInputTokens := 0, totalOutputTokens := 0, output := "", events := [] }
  simp only [runAnthropicLoop, hst']
  rw [hout]
  exact ⟨_, _, rfl, rfl⟩

/-- C4: a run whose provider requests tool calls on every one of the 20 turns
(the iteration ceiling is reached without a final answer) returns from the
loop successfully with the fixed sentinel warning as its output, and runAgent
terminates it through completeRun: the final record has status completed with
the sentinel output and no error, never status error. -/
theorem C4_iteration_ceiling_completes (env : RunnerEnv) (agentName : String)
    (agent : Agent) (apiKey : String) (registryTools : List RegisteredTool)
    (context : Option String)
    (hm : strStartsWith agent.model "claude-" = true)
    (hllm : ∀ j, ∃ r, env.anthropic.llm j 0 = .ok r ∧ r.stopReason = .toolUse) :
    ∃ res,
      (runAgent agentName (some agent) (some apiKey) registryTools env context).result
        = .ok res ∧
      res.output = ITERATION_SENTINEL ∧
      (runAgent agentName (some agent) (some apiKey) registryTools env context).record.status
        = .completed ∧
      (runAgent agentName (some agent) (some apiKey) registryTools env context).record.output
        = some ITERATION_SENTINEL ∧
      (runAgent agentName (some agent) (some apiKey) registryTools env context).record.errorMsg
        = none := by
  obtain ⟨res, st, hloop, hout⟩ :=
    runAnthropicLoop_ceiling env.anthropic agent.model context hllm
  have hparse : parseModelProvider agent.model =
      .ok { ptype := .anthropic, model := agent.model } := by
    simp [parseModelProvider, hm]
  have hrun : runAgent agentName (some agent) (some apiKey) registryTools env context =
      { result := .ok res,
        record := completeRun createdRun res
          (costForModel agent.model res.totalInputTokens res.totalOutputTokens),
        events := st.events } := by
    simp only [runAgent, hparse, hloop]
  rw [hrun]
  exact ⟨res, rfl, hout, rfl, by simp [completeRun, hout], rfl⟩

/-- The runner environment of the C4 witness: every Anthropic turn requests
tools (with empty content, so no tool is actually invoked). -/
def c4Env : RunnerEnv :=
  { anthropic :=
      { llm := fun _ _ =>
          .ok { stopReason := .toolUse, content := [],
                usage := { inputTokens := 5, outputTokens := 7 } },
        tool := fun _ _ => .ok "[]" false },
    ollamaFetch := fun _ => .netError true "fetch failed",
    ollamaTool := fun _ _ => .ok "[]" false }

/-- The agent of the C4 witness. -/
def c4Agent : Agent :=
  { model := "claude-sonnet-4-20250514", prompt := "p", tools := [] }

theorem C4_witness :
    ∃ res,
      (runAgent "w" (some c4Agent) (some "k") [] c4Env none).result = .ok res ∧
      res.output = ITERATION_SENTINEL ∧
      (runAgent "w" (some c4Agent) (some "k") [] c4Env none).record.status
        = .completed ∧
      (runAgent "w" (some c4Agent) (some "k") [] c4Env none).record.output
        = some ITERATION_SENTINEL ∧
      (runAgent "w" (some c4Agent) (some "k") [] c4Env none).record.errorMsg = none :=
  C4_iteration_ceiling_completes c4Env "w" c4Agent "k" [] none
    (by decide) (fun j => ⟨_, rfl, rfl⟩)

/-! ## C9: empty final text becomes the iteration-ceiling sentinel -/

theorem anthropicIter_endTurn_step (env : AnthropicEnv) (model : String)
    (i fuel : Nat) (st : AnthropicState) (r : AnthropicResponse)
    (h0 : env.llm i 0 = .ok r) (hsr : r.stopReason = .endTurn) :
    ∃ st', anthropicIter env model i (fuel + 1) st = .ok st' ∧
      st'.output = joinTextParts r.content := by
  have hcall : llmCallWithRetries (env.llm i) 0 MAX_RETRIES = (.ok r, []) := by
    rw [llmCallWithRetries, h0]
  simp only [anthropicIter, hcall, hsr]
  exact ⟨_, rfl, rfl⟩

theorem runAnthropicLoop_endTurn_empty (env : AnthropicEnv) (model : String)
    (context : Option String) (r : AnthropicResponse)
    (h0 : env.llm 0 0 = .ok r) (hsr : r.stopReason = .endTurn)
    (hjoin : joinTextParts r.content = "") :
    ∃ res st, runAnthropicLoop env model context = .ok (res, st) ∧
      res.output = ITERATION_SENTINEL := by
  obtain ⟨st', hst', hout⟩ := anthropicIter_endTurn_step env model 0 19
    { messages := [.user (context.getD "Go.")], totalToolCalls := 0,
      totalInputTokens := 0, totalOutputTokens := 0, output := "", events := [] }
    r h0 hsr
  have hst20 : anthropicIter env model 0 MAX_ITERATIONS
      { messages := [.user (context.getD "Go.")], totalToolCalls := 0,
        totalInputTokens := 0, totalOutputTokens := 0, output := "", events := [] } =
      .ok st' := hst'
  simp only [runAnthropicLoop, hst20]
  rw [hout, hjoin]
  exact ⟨_, _, rfl, rfl⟩

theorem ollamaIter_done_step (env : OllamaEnv) (model : String) (i fuel : Nat)
    (st : OllamaState) (resp : OllamaResponse) (choice : OllamaChoice)
    (rest : List OllamaChoice) (hf : env.fetch i = .ok resp)
    (hc : resp.choices = choice :: rest) (htc : choice.message.toolCalls = []) :
    ∃ st', ollamaIter env model i (fuel + 1) st = .ok st' ∧
      st'.output = (if choice.finishReason == "length"
        then choice.message.content.getD "" ++ TRUNCATION_WARNING
        else choice.message.content.getD "") := by
  have hfr : ollamaFetchResult (env.fetch i) = .ok resp := by rw [hf]; rfl
  simp only [ollamaIter, hfr, hc, htc]
  exact ⟨_, rfl, rfl⟩

theorem runOllamaLoop_done_empty (env : OllamaEnv)
    (model systemPrompt initialMessage : String) (resp : OllamaResponse)
    (choice : OllamaChoice) (rest : List OllamaChoice)
    (hf : env.fetch 0 = .ok resp) (hc : resp.choices = choice :: rest)
    (htc : choice.message.toolCalls = [])
    (hcont : choice.message.content.getD "" = "")
    (hlen : (choice.finishReason == "length") = false) :
    ∃ res st, runOllamaLoop env model systemPrompt initialMessage = .ok (res, st) ∧
      res.output = ITERATION_SENTINEL := by
  obtain ⟨st', hst', hout⟩ := ollamaIter_done_step env model 0 19
    { messages := [.system systemPrompt, .user initialMessage],
      totalToolCalls := 0, totalInputTokens := 0, totalOutputTokens := 0,
      output := "", events := [] } resp choice rest hf hc htc
  have hst20 : ollamaIter env model 0 MAX_ITERATIONS
      { messages := [.system systemPrompt, .user initialMessage],
        totalToolCalls := 0, totalInputTokens := 0, totalOutputTokens := 0,
        output := "", events := [] } = .ok st' := hst'
  rw [hlen, if_neg (by simp)] at hout
  simp only [runOllamaLoop, hst20]
  rw [hout, hcont]
  exact ⟨_, _, rfl, rfl⟩

/-- C9: when the provider ends the loop normally on the very first turn
(Anthropic stop_reason end_turn; Ollama a reply with no tool calls and no
truncation) but the final text is empty, the loop still succeeds and the
recorded output is the iteration-ceiling sentinel string, even though the
ceiling was never reached; through runAgent such a run completes with status
completed and the sentinel as its stored output. -/
theorem C9_empty_final_text_sentinel :
    (∀ (env : AnthropicEnv) (model : String) (context : Option String)
      (r : AnthropicResponse),
      env.llm 0 0 = .ok r → r.stopReason = .endTurn → joinTextParts r.content = "" →
      anthropicLoopOutput? (runAnthropicLoop env model context) =
        some ITERATION_SENTINEL) ∧
    (∀ (env : OllamaEnv) (model systemPrompt initialMessage : String)
      (resp : OllamaResponse) (choice : OllamaChoice) (rest : List OllamaChoice),
      env.fetch 0 = .ok resp → resp.choices = choice :: rest →
      choice.message.toolCalls = [] → choice.message.content.getD "" = "" →
      (choice.finishReason == "length") = false →
      ollamaLoopOutput? (runOllamaLoop env model systemPrompt initialMessage) =
        some ITERATION_SENTINEL) ∧
    (∀ (env : RunnerEnv) (agentName : String) (agent : Agent) (apiKey : String)
      (registryTools : List RegisteredTool) (context : Option String)
      (r : AnthropicResponse),
      strStartsWith agent.model "claude-" = true →
      env.anthropic.llm 0 0 = .ok r → r.stopReason = .endTurn →
      joinTextParts r.content = "" →
      (runAgent agentName (some agent) (some apiKey) registryTools env context).record.status
          = .completed ∧
      (runAgent agentName (some agent) (some apiKey) registryTools env context).record.output
          = some ITERATION_SENTINEL) := by
  refine ⟨?_, ?_, ?_⟩
  · intro env model context r h0 hsr hjoin
    obtain ⟨res, st, hloop, hout⟩ :=
      runAnthropicLoop_endTurn_empty env model context r h0 hsr hjoin
    rw [hloop, anthropicLoopOutput?, hout]
  · intro env model systemPrompt initialMessage resp choice rest hf hc htc hcont hlen
    obtain ⟨res, st, hloop, hout⟩ :=
      runOllamaLoop_done_empty env model systemPrompt initialMessage resp choice
        rest hf hc htc hcont hlen
    rw [hloop, ollamaLoopOutput?, hout]
  · intro env agentName agent apiKey registryTools context r hm h0 hsr hjoin
    obtain ⟨res, st, hloop, hout⟩ :=
      runAnthropicLoop_endTurn_empty env.anthropic agent.model context r h0 hsr hjoin
    have hparse : parseModelProvider agent.model =
        .ok { ptype := .anthropic, model := agent.model } := by
      simp [parseModelProvider, hm]
    have hrun : runAgent agentName (some agent) (some apiKey) registryTools env context =
        { result := .ok res,
          record := completeRun createdRun res
            (costForModel agent.model res.totalInputTokens res.totalOutputTokens),
          events := st.events } := by
      simp only [runAgent, hparse, hloop]
    rw [hrun]
    exact ⟨rfl, by simp [completeRun, hout]⟩

/-- The Anthropic environment of the C9 witness: an immediate end_turn with
no text blocks at all. -/
def c9AnthropicEnv : AnthropicEnv :=
  { llm := fun _ _ =>
      .ok { stopReason := .endTurn, content := [],
            usage := { inputTokens := 2, outputTokens := 0 } },
    tool := fun _ _ => .ok "[]" false }

/-- The Ollama environment of the C9 witness: a first reply with no tool
calls, null content and a normal finish reason. -/
def c9OllamaEnv : OllamaEnv :=
  { fetch := fun _ =>
      .ok { choices := [{ message := { content := none, toolCalls := [] },
                          finishReason := "stop" }],
            usage := some { promptTokens := 2, completionTokens := 0 } },
    tool := fun _ _ => .ok "[]" false }

theorem C9_witness :
    anthropicLoopOutput? (runAnthropicLoop c9AnthropicEnv "claude-sonnet-4-20250514"
        (some "ctx")) = some ITERATION_SENTINEL ∧
    ollamaLoopOutput? (runOllamaLoop c9OllamaEnv "llama3.3:70b" "p" "Go.") =
      some ITERATION_SENTINEL :=
  ⟨C9_empty_final_text_sentinel.1 c9AnthropicEnv "claude-sonnet-4-20250514"
      (some "ctx") _ rfl rfl rfl,
   C9_empty_final_text_sentinel.2.1 c9OllamaEnv "llama3.3:70b" "p" "Go."
      _ _ _ rfl rfl rfl rfl rfl⟩

/-! ## C1: the outer guard does not cover model-identifier validation -/

/-- The runner environment of the C1 evaluation: every Anthropic attempt fails
with a non-transient 400 error. -/
def c1Env : RunnerEnv :=
  { anthropic :=
      { llm := fun _ _ =>
          .err { status := some 400, retryAfterSecs := none, message := "bad request" },
        tool := fun _ _ => .ok "[]" false },
    ollamaFetch := fun _ => .netError true "fetch failed",
    ollamaTool := fun _ _ => .ok "[]" false }

/-- The agent with an unrecognized model prefix. -/
def c1BadPrefixAgent : Agent := { model := "gpt-4o", prompt := "p", tools := [] }

/-- An agent whose model passes prefix validation but whose provider call
fails inside the guarded section. -/
def c1BadRequestAgent : Agent := { model := "claude-x", prompt := "p", tools := [] }

/-- C1 (code bug): parseModelProvider is called before the try/catch of
runAgent, so an unrecognized model prefix makes runAgent throw with NO error
event and NO failRun — the run record stays in status running even though
runAgent has thrown, violating the claimed single-terminal-write guarantee.
By contrast, an error raised inside the guarded section (here a non-transient
400 from the provider) is logged as an error event, converted into failRun
and re-thrown, exactly as the claim describes. -/
theorem C1_unknown_model_prefix_run_stays_running :
    ((runAgent "mailer" (some c1BadPrefixAgent) (some "key") [] c1Env none).record.status
        = RunStatus.running ∧
     (runAgent "mailer" (some c1BadPrefixAgent) (some "key") [] c1Env none).record
        = createdRun ∧
     runResultError?
        (runAgent "mailer" (some c1BadPrefixAgent) (some "key") [] c1Env none).result =
       some ("Unknown model \"gpt-4o\". Model must start with \"claude-\" or \"ollama/\" (e.g. \"claude-sonnet-4-20250514\", \"ollama/llama3.3:70b\")") ∧
     (runAgent "mailer" (some c1BadPrefixAgent) (some "key") [] c1Env none).events = []) ∧
    ((runAgent "mailer" (some c1BadRequestAgent) (some "key") [] c1Env none).record.status
        = RunStatus.error ∧
     (runAgent "mailer" (some c1BadRequestAgent) (some "key") [] c1Env none).record.errorMsg
        = some "bad request" ∧
     (runAgent "mailer" (some c1BadRequestAgent) (some "key") [] c1Env none).events
        = [.error "bad request"]) := by
  refine ⟨⟨?_, ?_, ?_, ?_⟩, ⟨?_, ?_, ?_⟩⟩ <;> decide
